import Mathlib

/-!
# A verification development for the `audio-io` WAVE codec

This file gives a shallow embedding, in Lean 4, of the core of the
`audio-io` repository: the byte-level chunk model (`wave/chunks.go`), the
24-bit packing routines (`wave/io.go`), the parsed `Header` view
(`header.go`), the streaming `Writer` with its two-pass preamble protocol
(`writer.go`), the buffered typed `Reader` (`reader.go`), and the
growable seekable byte sink (`bytes/writer.go`).

Bytes are modelled as natural numbers (values `< 256`); byte strings as
`List Nat`.  Machine integers are modelled as `Nat`/`Int` with explicit
reduction modulo `2^16`/`2^32` at the points where the Go code performs
fixed-width arithmetic.  Go functions that can panic at run time (slice
indexing out of bounds, integer division by zero) are embedded with an
explicit `panic` outcome so that safety claims about them can be settled
faithfully.

The theorems at the end of the file settle the claims of the
specification against these embeddings.
-/

namespace AudioIO

/-- The error values (Go `error` sentinels and formatted errors) that the
core codec can return.  Formatted errors carry the numbers they embed. -/
inductive Err where
  | riffChunkCorruptedHeader
  | fmtChunkMissingSubFormat
  | fmtChunkInvalidExtensible
  | fmtChunkCorruptedPayload
  | factChunkCorruptedPayload
  | cueChunkCorruptedPayload
  | headerMissingFmtChunk
  | ioInvalid24BitInput
  | eof
  | unexpectedEOF
  | writerInvalidByteCount
  | writerExpectedUint8
  | writerExpectedInt16
  | writerExpectedInt24
  | writerExpectedInt32
  | writerExpectedFloat32
  | writerExpectedFloat64
  | readerUnexpectedUint8
  | readerUnexpectedInt16
  | readerUnexpectedInt24
  | readerUnexpectedInt32
  | readerUnexpectedFloat32
  | readerUnexpectedFloat64
  | invalidFormatCode (code : Nat)
  | unknownPCMBits (bits : Nat)
  | unknownIEEEFloatBits (bits : Nat)
deriving DecidableEq, Repr

/-- Outcome of running a piece of Go code: a run-time panic, a returned
error value, or a normal result. -/
inductive GoResult (α : Type) where
  | panic : GoResult α
  | error : (e : Err) → GoResult α
  | ok : (a : α) → GoResult α
deriving DecidableEq

/-- Value of a byte string interpreted as a little-endian unsigned
integer (`binary.LittleEndian.Uint16/Uint32/Uint64` on a slice of the
corresponding length). -/
def leNat : List Nat → Nat
  | [] => 0
  | b :: rest => b + 256 * leNat rest

/-- `binary.LittleEndian.PutUint16`: the two little-endian bytes of a
16-bit value. -/
def toLE16 (v : Nat) : List Nat :=
  [v % 256, v / 256 % 256]

/-- `binary.LittleEndian.PutUint32` (also `uint32ToBytes`): the four
little-endian bytes of a 32-bit value. -/
def toLE32 (v : Nat) : List Nat :=
  [v % 256, v / 256 % 256, v / 65536 % 256, v / 16777216 % 256]

/-- `binary.LittleEndian.PutUint64`: the eight little-endian bytes of a
64-bit value. -/
def toLE64 (v : Nat) : List Nat :=
  [v % 256, v / 256 % 256, v / 65536 % 256, v / 16777216 % 256,
   v / 4294967296 % 256, v / 1099511627776 % 256,
   v / 281474976710656 % 256, v / 72057594037927936 % 256]

theorem toLE16_length (v : Nat) : (toLE16 v).length = 2 := rfl

theorem toLE32_length (v : Nat) : (toLE32 v).length = 4 := rfl

theorem toLE64_length (v : Nat) : (toLE64 v).length = 8 := rfl

theorem leNat_toLE16 (v : Nat) : leNat (toLE16 v) = v % 65536 := by
  simp only [toLE16, leNat]
  omega

theorem leNat_toLE32 (v : Nat) : leNat (toLE32 v) = v % 4294967296 := by
  simp only [toLE32, leNat]
  omega

theorem leNat_toLE64 (v : Nat) : leNat (toLE64 v) = v % 18446744073709551616 := by
  simp only [toLE64, leNat]
  omega

theorem toLE16_bytes_lt (v : Nat) : ∀ b ∈ toLE16 v, b < 256 := by
  intro b hb
  simp only [toLE16, List.mem_cons, List.not_mem_nil, or_false] at hb
  rcases hb with rfl | rfl <;> omega

theorem toLE32_bytes_lt (v : Nat) : ∀ b ∈ toLE32 v, b < 256 := by
  intro b hb
  simp only [toLE32, List.mem_cons, List.not_mem_nil, or_false] at hb
  rcases hb with rfl | rfl | rfl | rfl <;> omega

/-- Flipping the bit `2^k` of a value below `2^k` adds `2^k`. -/
theorem xor_two_pow_of_lt : ∀ (k v : Nat), v < 2 ^ k → v ^^^ 2 ^ k = v + 2 ^ k := by
  intro k
  induction k with
  | zero =>
    intro v hv
    interval_cases v
    rfl
  | succ k ih =>
    intro v hv
    have h2 : (v ^^^ 2 ^ (k + 1)) = 2 * ((v ^^^ 2 ^ (k + 1)) / 2) + (v ^^^ 2 ^ (k + 1)) % 2 :=
      by omega
    have hdiv : (v ^^^ 2 ^ (k + 1)) / 2 = v / 2 ^^^ 2 ^ k := by
      rw [Nat.xor_div_two]
      congr 1
      omega
    have hmod : (v ^^^ 2 ^ (k + 1)) % 2 = v % 2 := by
      rw [Nat.xor_mod_two_eq]
      omega
    have hv2 : v / 2 < 2 ^ k := by omega
    have := ih (v / 2) hv2
    omega

/-- Flipping the bit `2^k` of a value in `[2^k, 2^(k+1))` subtracts `2^k`. -/
theorem xor_two_pow_of_ge (k v : Nat) (h1 : 2 ^ k ≤ v) (h2 : v < 2 ^ (k + 1)) :
    v ^^^ 2 ^ k = v - 2 ^ k := by
  have h3 : (v - 2 ^ k) ^^^ 2 ^ k = (v - 2 ^ k) + 2 ^ k :=
    xor_two_pow_of_lt k _ (by omega)
  have h4 : (v - 2 ^ k) + 2 ^ k = v := by omega
  have h5 := Nat.xor_cancel_right (2 ^ k) (v - 2 ^ k)
  rw [h3, h4] at h5
  omega

/-! ## The Int24 packer (`wave/io.go`) -/

/-- The three little-endian bytes `byte(x & 0xFF)`, `byte((x & 0xFF00) >> 8)`,
`byte((x & 0xFF0000) >> 16)` that `WritePackedInt24` emits for one `int32`
element.  On the two's-complement representation these are the three low
bytes of `x mod 2^32`. -/
def packInt24 (x : Int) : List Nat :=
  let u := (x % 4294967296).toNat
  [u % 256, u / 256 % 256, u / 65536 % 256]

/-- `WritePackedInt24`: packs each `int32` element into 3 bytes in
little-endian order, without separations between elements.  We model the
byte string the function writes to its `io.Writer`. -/
def writePackedInt24 : List Int → List Nat
  | [] => []
  | x :: rest => packInt24 x ++ writePackedInt24 rest

/-- The body of the `ReadPackedInt24` loop for one 3-byte group: little-endian
reassembly into the low 24 bits of an `int32`, then sign extension by
`(x ^ 0x800000) - 0x800000`. -/
def unpackInt24 (b0 b1 b2 : Nat) : Int :=
  ((leNat [b0, b1, b2] ^^^ 8388608 : Nat) : Int) - 8388608

/-- The loop of `ReadPackedInt24`, decoding consecutive 3-byte groups. -/
def unpackInt24List : List Nat → List Int
  | b0 :: b1 :: b2 :: rest => unpackInt24 b0 b1 b2 :: unpackInt24List rest
  | _ => []

/-- `ReadPackedInt24`: fails with `ErrIOInvalid24BitInput` when the input
length is not divisible by 3, and otherwise unpacks each 3-byte group. -/
def readPackedInt24 (input : List Nat) : GoResult (List Int) :=
  if input.length % 3 ≠ 0 then .error .ioInvalid24BitInput
  else .ok (unpackInt24List input)

theorem packInt24_length (x : Int) : (packInt24 x).length = 3 := rfl

theorem writePackedInt24_length (xs : List Int) :
    (writePackedInt24 xs).length = 3 * xs.length := by
  induction xs with
  | nil => rfl
  | cons x rest ih =>
    simp only [writePackedInt24, List.length_append, List.length_cons,
      packInt24_length, ih]
    ring

/-- Unpacking the packed bytes of a single in-range `int24` value recovers
the value: the sign-extension trick `(v ^ 0x800000) - 0x800000` inverts the
truncation to 3 bytes. -/
theorem unpack_pack_int24 (x : Int) (hlo : -8388608 ≤ x) (hhi : x < 8388608) :
    unpackInt24 ((x % 4294967296).toNat % 256) ((x % 4294967296).toNat / 256 % 256)
      ((x % 4294967296).toNat / 65536 % 256) = x := by
  simp only [unpackInt24, leNat]
  have hu : ((x % 4294967296).toNat : Int) = x % 4294967296 := by omega
  set u := (x % 4294967296).toNat with hud
  have hv : u % 256 + 256 * (u / 256 % 256 + 256 * (u / 65536 % 256 + 256 * 0))
      = u % 16777216 := by omega
  rw [hv]
  rcases le_or_lt 0 x with hx | hx
  · -- nonnegative: the low 24 bits are x itself, top bit of the 24 clear
    have ha : u % 16777216 < 8388608 := by omega
    have hxor : u % 16777216 ^^^ 8388608 = u % 16777216 + 8388608 := by
      have h := xor_two_pow_of_lt 23 (u % 16777216) (by norm_num; omega)
      norm_num at h
      exact h
    rw [hxor]
    omega
  · -- negative: the low 24 bits are x + 2^24, top bit of the 24 set
    have ha : 8388608 ≤ u % 16777216 := by omega
    have hxor : u % 16777216 ^^^ 8388608 = u % 16777216 - 8388608 := by
      have h := xor_two_pow_of_ge 23 (u % 16777216) (by norm_num; omega)
        (by norm_num; omega)
      norm_num at h
      exact h
    rw [hxor]
    omega

/-- Unpacking the concatenation of packed in-range values recovers the list. -/
theorem unpackList_packList (xs : List Int)
    (hr : ∀ x ∈ xs, -8388608 ≤ x ∧ x < 8388608) :
    unpackInt24List (writePackedInt24 xs) = xs := by
  induction xs with
  | nil => rfl
  | cons x rest ih =>
    have hx := hr x (List.mem_cons_self x rest)
    have hrest : ∀ y ∈ rest, -8388608 ≤ y ∧ y < 8388608 := by
      intro y hy
      exact hr y (List.mem_cons_of_mem x hy)
    simp only [writePackedInt24, packInt24, List.cons_append, List.nil_append,
      unpackInt24List]
    rw [unpack_pack_int24 x hx.1 hx.2, show ([].append (writePackedInt24 rest))
      = writePackedInt24 rest from rfl, ih hrest]


/-! ## Sample types and format codes (`core/sample_type.go`, `format_code.go`) -/

/-- `core.SampleType`: the six valid sample types.  (The Go type is an
`int` enum; the claims only quantify over its valid values, which are
exactly these six.) -/
inductive SampleType where
  | uint8
  | int16
  | int24
  | int32
  | float32
  | float64
deriving DecidableEq, Repr

/-- `SampleType.Size`: the size of one sample, measured in bytes. -/
def SampleType.size : SampleType → Nat
  | .uint8 => 1
  | .int16 => 2
  | .int24 => 3
  | .int32 => 4
  | .float32 => 4
  | .float64 => 8

/-- `FormatCode` is a `uint16` enum; we model its carrier as `Nat` so that
arbitrary parsed codes are representable. -/
def formatCodePCM : Nat := 0x0001

def formatCodeIEEEFloat : Nat := 0x0003

def formatCodeExtensible : Nat := 0xFFFE

/-- `FormatCode.IsValid`. -/
def formatCodeIsValid (f : Nat) : Bool :=
  f = formatCodePCM || f = formatCodeIEEEFloat || f = formatCodeExtensible

/-- `effectiveFormatCode(s core.SampleType)`: the plain format code that
matches a sample type (float kinds map to IEEE-float, the rest to PCM). -/
def SampleType.effectiveFormatCode : SampleType → Nat
  | .float32 => formatCodeIEEEFloat
  | .float64 => formatCodeIEEEFloat
  | _ => formatCodePCM

/-! ## The format chunk (`wave/chunks.go`) -/

/-- `FormatChunkData`.  The three trailing fields are present (`some`)
exactly when the chunk uses the extensible layout; `uint16` fields hold
values `< 2^16` and `uint32` fields values `< 2^32` whenever they come
from the Go code. -/
structure FormatChunkData where
  formatCode : Nat
  channelCount : Nat
  frameRate : Nat
  byteRate : Nat
  blockAlign : Nat
  bitsPerSample : Nat
  validBitsPerSample : Option Nat
  channelMask : Option Nat
  subFormat : Option Nat
deriving DecidableEq, Repr

/-- `NewFormatChunkData`: derives the format chunk from channel count,
frame rate and sample type.  `blockAlign` is computed in `uint16`
arithmetic and `byteRate` in `uint32` arithmetic, hence the explicit
reductions.  The extensible layout is selected when the channel count
exceeds 2 or the sample type is a 24/32-bit integer. -/
def newFormatChunkData (channelCount : Nat) (frameRate : Nat)
    (sampleType : SampleType) : FormatChunkData :=
  let effectiveCode := sampleType.effectiveFormatCode
  let sampleSizeBytes := sampleType.size
  let bitsPerSample := sampleSizeBytes * 8
  let blockAlign := sampleSizeBytes * channelCount % 65536
  let bytesPerSecond := frameRate * blockAlign % 4294967296
  let isExtensible : Bool :=
    2 < channelCount || sampleType = SampleType.int24 || sampleType = SampleType.int32
  if isExtensible then
    { formatCode := formatCodeExtensible
      channelCount := channelCount
      frameRate := frameRate
      byteRate := bytesPerSecond
      blockAlign := blockAlign
      bitsPerSample := bitsPerSample
      validBitsPerSample := some bitsPerSample
      channelMask := some 0
      subFormat := some effectiveCode }
  else
    { formatCode := effectiveCode
      channelCount := channelCount
      frameRate := frameRate
      byteRate := bytesPerSecond
      blockAlign := blockAlign
      bitsPerSample := bitsPerSample
      validBitsPerSample := none
      channelMask := none
      subFormat := none }

/-- `FormatChunkData.EffectiveFormatCode`: the format code itself, or the
sub-format when the extensible layout is used (failing when the
sub-format is absent). -/
def FormatChunkData.effectiveFormatCode (c : FormatChunkData) : GoResult Nat :=
  if c.formatCode = formatCodeExtensible then
    match c.subFormat with
    | none => .error .fmtChunkMissingSubFormat
    | some sf => .ok sf
  else .ok c.formatCode

/-- `FormatChunkData.ChunkSize`: 16 bytes for PCM, 18 for IEEE-float, 40
for extensible. -/
def FormatChunkData.chunkSize (c : FormatChunkData) : Nat :=
  16 + (if c.formatCode = formatCodeIEEEFloat then 2
        else if c.formatCode = formatCodeExtensible then 24 else 0)

/-- The fixed 14-byte tail of the extensible sub-format GUID (the first
two GUID bytes carry the sub-format code). -/
def subFormatGUIDTail : List Nat :=
  [0x00, 0x00, 0x00, 0x00, 0x10, 0x00, 0x80, 0x00, 0x00, 0xAA, 0x00, 0x38, 0x9B, 0x71]

/-- `FormatChunkData.Serialize`: the 16 mandatory bytes, plus a zero
extension-size field for IEEE-float, plus the 24 extensible bytes
(extension size 22, valid bits, channel mask, sub-format GUID) for the
extensible layout; fails when an extensible chunk is missing one of its
three extension fields. -/
def FormatChunkData.serialize (c : FormatChunkData) : GoResult (List Nat) :=
  let base := toLE16 c.formatCode ++ toLE16 c.channelCount ++ toLE32 c.frameRate ++
    toLE32 c.byteRate ++ toLE16 c.blockAlign ++ toLE16 c.bitsPerSample
  if c.formatCode = formatCodeIEEEFloat then .ok (base ++ toLE16 0)
  else if c.formatCode = formatCodeExtensible then
    match c.validBitsPerSample, c.channelMask, c.subFormat with
    | some vb, some cm, some sf =>
        .ok (base ++ toLE16 22 ++ toLE16 vb ++ toLE32 cm ++ toLE16 sf ++ subFormatGUIDTail)
    | _, _, _ => .error .fmtChunkInvalidExtensible
  else .ok base

/-- `binary.LittleEndian.Uint16(data[i : i+2])`. -/
def readU16At (data : List Nat) (i : Nat) : Nat :=
  leNat ((data.drop i).take 2)

/-- `binary.LittleEndian.Uint32(data[i : i+4])`. -/
def readU32At (data : List Nat) (i : Nat) : Nat :=
  leNat ((data.drop i).take 4)

/-- `DeserializeFormatChunk`: reads the 16 mandatory bytes (failing with a
corrupted-payload error on shorter input); when at least 18 bytes are
present reads the extension size, and when that is at least 22 reads the
extended fields at offsets 18, 20 and 24.  Those three reads are
performed without a further bounds check in the Go code, so an input of
length 18–25 with a large extension size panics (slice out of range). -/
def deserializeFormatChunk (data : List Nat) : GoResult FormatChunkData :=
  if data.length < 16 then .error .fmtChunkCorruptedPayload
  else
    let base : FormatChunkData :=
      { formatCode := readU16At data 0
        channelCount := readU16At data 2
        frameRate := readU32At data 4
        byteRate := readU32At data 8
        blockAlign := readU16At data 12
        bitsPerSample := readU16At data 14
        validBitsPerSample := none
        channelMask := none
        subFormat := none }
    if 18 ≤ data.length then
      let extensionSize := readU16At data 16
      if 22 ≤ extensionSize then
        if data.length < 26 then .panic
        else
          .ok { base with
            validBitsPerSample := some (readU16At data 18)
            channelMask := some (readU32At data 20)
            subFormat := some (readU16At data 24) }
      else .ok base
    else .ok base

/-! ## The fact chunk (`wave/chunks.go`) -/

/-- `FactChunkData.Serialize`: the frame count as four little-endian
bytes.  (`FactChunkData` itself is a single `uint32`, modelled as `Nat`.) -/
def serializeFactChunk (sampleFrames : Nat) : List Nat :=
  toLE32 sampleFrames

/-- `DeserializeFactChunk`: fails with a corrupted-payload error on fewer
than 4 bytes, else reads the frame count. -/
def deserializeFactChunk (data : List Nat) : GoResult Nat :=
  if data.length < 4 then .error .factChunkCorruptedPayload
  else .ok (readU32At data 0)

/-! ## The cue chunk (`wave/chunks.go`) -/

structure CuePoint where
  id : Nat
  position : Nat
  fccChunk : List Nat
  chunkStart : Nat
  blockStart : Nat
  sampleOffset : Nat
deriving DecidableEq, Repr

structure CueChunkData where
  cuePoints : List CuePoint
deriving DecidableEq, Repr

/-- `DeserializeCueChunkData`: fails with a corrupted-payload error on
fewer than 4 bytes, or when the input is shorter than `count * 24` bytes
(the Go check omits the 4 count bytes).  The Go decode loop then fills
every cue point from the same fixed offsets `data[4:28]` (the loop body
never advances with the index), so all returned points are decoded from
the first entry, and when the count is nonzero but fewer than 28 bytes
are present the slice expressions panic (out of range). -/
def deserializeCueChunkData (data : List Nat) : GoResult CueChunkData :=
  if data.length < 4 then .error .cueChunkCorruptedPayload
  else
    let numCuePoints := readU32At data 0
    if data.length < numCuePoints * 24 then .error .cueChunkCorruptedPayload
    else if numCuePoints = 0 then .ok ⟨[]⟩
    else if data.length < 28 then .panic
    else
      .ok ⟨List.replicate numCuePoints
        { id := readU32At data 4
          position := readU32At data 8
          fccChunk := (data.drop 12).take 4
          chunkStart := readU32At data 16
          blockStart := readU32At data 20
          sampleOffset := readU32At data 24 }⟩

/-! ## Chunks and the RIFF container (`wave/chunks.go`) -/

/-- A `Chunk`: 4-byte identifier, declared `uint32` body size, byte body.
For the data chunk the writer stores a nonzero size with an empty body. -/
structure Chunk where
  id : List Nat
  size : Nat
  body : List Nat
deriving DecidableEq, Repr

/-- `Chunk.Serialize`: identifier, little-endian size, body. -/
def Chunk.serialize (c : Chunk) : List Nat :=
  c.id ++ toLE32 c.size ++ c.body

def riffChunkID : List Nat := [82, 73, 70, 70]   -- "RIFF"

def waveID : List Nat := [87, 65, 86, 69]        -- "WAVE"

def formatChunkID : List Nat := [102, 109, 116, 32]  -- "fmt "

def factChunkID : List Nat := [102, 97, 99, 116]     -- "fact"

def dataChunkID : List Nat := [100, 97, 116, 97]     -- "data"

def cueChunkID : List Nat := [99, 117, 101, 32]      -- "cue "

/-- The concatenated serializations of a list of sub-chunks. -/
def serializeSubChunks : List Chunk → List Nat
  | [] => []
  | c :: rest => c.serialize ++ serializeSubChunks rest

/-- `RIFFChunkData.Serialize`, first component: the WAVE type tag followed
by the serialized sub-chunks. -/
def riffBody (subChunks : List Chunk) : List Nat :=
  waveID ++ serializeSubChunks subChunks

/-- `RIFFChunkData.Serialize`, second component: the expected total size
(`uint32`), counting for each sub-chunk its 8-byte header, its declared
size and a padding byte when that size is odd. -/
def riffExpectedSize (subChunks : List Chunk) : Nat :=
  (4 + (subChunks.map (fun c => 8 + c.size + c.size % 2)).sum) % 4294967296

/-- `NewRIFFChunk`: the root chunk wrapping the serialized sub-chunks,
sized by the expected total (not by the body actually present). -/
def newRIFFChunk (subChunks : List Chunk) : Chunk :=
  { id := riffChunkID, size := riffExpectedSize subChunks, body := riffBody subChunks }



/-! ## The RIFF scan (`ReadRIFFChunk` in `wave/chunks.go`)

The input stream (an `io.ReadSeeker` over a byte buffer) is modelled as
the full byte list together with explicit offsets. -/

/-- `io.ReadFull` of `n` bytes from a byte buffer at absolute offset
`off`: succeeds exactly when `n` bytes are available (a zero-length read
always succeeds). -/
def readFullAt (data : List Nat) (off n : Nat) : Option (List Nat) :=
  if n = 0 then some []
  else if off + n ≤ data.length then some ((data.drop off).take n) else none

/-- The error `io.ReadFull` reports at offset `off`: `io.EOF` when no
bytes are available, `io.ErrUnexpectedEOF` on a short read. -/
def readFullErr (data : List Nat) (off : Nat) : Err :=
  if data.length ≤ off then .eof else .unexpectedEOF

/-- The chunk-scanning loop of `ReadRIFFChunk`.  Starting at `off`, reads
4-byte id and 4-byte size; for chunks other than the data chunk reads
the whole body (plus one padding byte when the size is odd), while for
the data chunk it records the body offset and seeks past body and
padding.  The loop stops once the running offset reaches the declared
file size.  `fuel` bounds the recursion; each iteration advances the
offset by at least 8, so the caller's `fileSize + 1` can never run out
(the `fuel = 0` case is unreachable). -/
def scanChunks (data : List Nat) (fileSize : Nat) :
    (off : Nat) → (dataOff : Nat) → (fuel : Nat) → GoResult (List Chunk × Nat)
  | _, _, 0 => .panic
  | off, dataOff, fuel + 1 =>
    if fileSize ≤ off then .ok ([], dataOff)
    else
      match readFullAt data off 4 with
      | none => .error (readFullErr data off)
      | some chunkID =>
        match readFullAt data (off + 4) 4 with
        | none => .error (readFullErr data (off + 4))
        | some sizeBytes =>
          let chunkSize := leNat sizeBytes
          let padding := chunkSize % 2
          if chunkID ≠ dataChunkID then
            match readFullAt data (off + 8) chunkSize with
            | none => .error (readFullErr data (off + 8))
            | some body =>
              if padding = 1 ∧ data.length ≤ off + 8 + chunkSize then
                .error .eof
              else
                match scanChunks data fileSize (off + 8 + chunkSize + padding) dataOff fuel with
                | .ok (chunks, dOff) => .ok (⟨chunkID, chunkSize, body⟩ :: chunks, dOff)
                | r => r
          else
            match scanChunks data fileSize (off + 8 + chunkSize + padding) (off + 8) fuel with
            | .ok (chunks, dOff) => .ok (⟨chunkID, chunkSize, []⟩ :: chunks, dOff)
            | r => r

/-- `ReadRIFFChunk`: validates the `RIFF` and `WAVE` tags, computes the
total file size from the declared remaining size (`uint32` addition of
8), scans the sub-chunks, and leaves the stream at the recorded data
chunk offset.  Returns (file size, sub-chunks, data chunk offset). -/
def readRIFFChunk (data : List Nat) : GoResult (Nat × List Chunk × Nat) :=
  match readFullAt data 0 4 with
  | none => .error (readFullErr data 0)
  | some tag =>
    if tag ≠ riffChunkID then .error .riffChunkCorruptedHeader
    else
      match readFullAt data 4 4 with
      | none => .error (readFullErr data 4)
      | some sizeBytes =>
        let fileSize := (leNat sizeBytes + 8) % 4294967296
        match readFullAt data 8 4 with
        | none => .error (readFullErr data 8)
        | some typeTag =>
          if typeTag ≠ waveID then .error .riffChunkCorruptedHeader
          else
            match scanChunks data fileSize 12 0 (fileSize + 1) with
            | .ok (chunks, dataOff) => .ok (fileSize, chunks, dataOff)
            | .error e => .error e
            | .panic => .panic

/-! ## The parsed header (`header.go`) -/

/-- A `Header`: the parsed, read-only view over the scanned chunk data.
`factData` holds the fact chunk's frame count when a fact chunk is
present. -/
structure Header where
  reportedFileSizeBytes : Nat
  formatData : FormatChunkData
  factData : Option Nat
  cueData : Option CueChunkData
  dataBytes : Nat
  additionalChunks : List Chunk
deriving DecidableEq, Repr

/-- The chunk-classification loop of `parseHeaderFromRIFFChunk`:
format/fact/cue chunks are deserialized (later occurrences overwrite
earlier ones), the data chunk contributes its declared size, and
anything else is appended to the additional-chunks list. -/
def parseHeaderLoop : List Chunk → Option FormatChunkData → Option Nat →
    Option CueChunkData → Nat → List Chunk →
    GoResult (Option FormatChunkData × Option Nat × Option CueChunkData × Nat × List Chunk)
  | [], fmtc, factc, cuec, dataBytes, additional => .ok (fmtc, factc, cuec, dataBytes, additional)
  | c :: rest, fmtc, factc, cuec, dataBytes, additional =>
    if c.id = formatChunkID then
      match deserializeFormatChunk c.body with
      | .ok fc => parseHeaderLoop rest (some fc) factc cuec dataBytes additional
      | .error e => .error e
      | .panic => .panic
    else if c.id = factChunkID then
      match deserializeFactChunk c.body with
      | .ok fa => parseHeaderLoop rest fmtc (some fa) cuec dataBytes additional
      | .error e => .error e
      | .panic => .panic
    else if c.id = cueChunkID then
      match deserializeCueChunkData c.body with
      | .ok cu => parseHeaderLoop rest fmtc factc (some cu) dataBytes additional
      | .error e => .error e
      | .panic => .panic
    else if c.id = dataChunkID then
      parseHeaderLoop rest fmtc factc cuec c.size additional
    else
      parseHeaderLoop rest fmtc factc cuec dataBytes (additional ++ [c])

/-- `parseHeaderFromRIFFChunk`: classifies the scanned chunks and builds
the `Header`, failing when no format chunk was found. -/
def parseHeaderFromRIFFChunk (totalFileSize : Nat) (chunks : List Chunk) :
    GoResult Header :=
  match parseHeaderLoop chunks none none none 0 [] with
  | .ok (none, _, _, _, _) => .error .headerMissingFmtChunk
  | .ok (some fc, factc, cuec, dataBytes, additional) =>
      .ok { reportedFileSizeBytes := totalFileSize
            formatData := fc
            factData := factc
            cueData := cuec
            dataBytes := dataBytes
            additionalChunks := additional }
  | .error e => .error e
  | .panic => .panic

/-- `Header.FrameCount`: `DataBytes / BlockAlign` in `uint32` arithmetic;
Go panics when the divisor is zero. -/
def Header.frameCount (h : Header) : GoResult Nat :=
  if h.formatData.blockAlign = 0 then .panic
  else .ok (h.dataBytes / h.formatData.blockAlign)

/-- `Header.SampleCount`: `DataBytes / (BitsPerSample / 8)` in `uint32`
arithmetic; Go panics when the divisor is zero (bits per sample below 8). -/
def Header.sampleCount (h : Header) : GoResult Nat :=
  if h.formatData.bitsPerSample / 8 = 0 then .panic
  else .ok (h.dataBytes / (h.formatData.bitsPerSample / 8))

/-- `Header.SampleType`: resolves the effective format code, rejects
invalid codes, then maps (effective code, bits per sample) to a sample
type.  The PCM branch accepts widths 8/16/24/32; every other valid code
(IEEE-float, but also a nested Extensible sub-format) falls into the
IEEE-float branch accepting 32/64. -/
def Header.sampleType (h : Header) : GoResult SampleType :=
  match h.formatData.effectiveFormatCode with
  | .error e => .error e
  | .panic => .panic
  | .ok fc =>
    if ¬ formatCodeIsValid fc then .error (.invalidFormatCode fc)
    else if fc = formatCodePCM then
      match h.formatData.bitsPerSample with
      | 8 => .ok .uint8
      | 16 => .ok .int16
      | 24 => .ok .int24
      | 32 => .ok .int32
      | b => .error (.unknownPCMBits b)
    else
      match h.formatData.bitsPerSample with
      | 32 => .ok .float32
      | 64 => .ok .float64
      | b => .error (.unknownIEEEFloatBits b)



/-! ## The growable seekable sink (`bytes/writer.go`) -/

/-- `bytes.Writer`: a variable-sized byte buffer with a movable write
head.  `Write` overwrites from the head onwards, extending the buffer as
needed, and advances the head; it never fails. -/
structure BWriter where
  buf : List Nat
  idx : Nat
deriving DecidableEq, Repr

/-- `bytes.Writer.Write`. -/
def BWriter.write (w : BWriter) (p : List Nat) : BWriter :=
  { buf := w.buf.take w.idx ++ p ++ w.buf.drop (w.idx + p.length)
    idx := w.idx + p.length }

/-- `Seek(0, io.SeekStart)`: the resolved head `0` is always within
bounds, so this cannot fail. -/
def BWriter.seekToStart (w : BWriter) : BWriter :=
  { w with idx := 0 }

/-- `Seek(0, io.SeekEnd)`: the resolved head `len(buf)` is always within
bounds, so this cannot fail. -/
def BWriter.seekToEnd (w : BWriter) : BWriter :=
  { w with idx := w.buf.length }

/-! ## The streaming writer (`writer.go`) -/

/-- `wave.Writer` over an in-memory `bytes.Writer` sink: the configured
sample type, the derived format chunk, the optional fact chunk's frame
count (allocated, as zero, exactly when the derived format code is not
plain PCM), and the running `uint32` count of audio bytes appended. -/
structure Writer where
  base : BWriter
  sampleType : SampleType
  formatChunkData : FormatChunkData
  factChunkData : Option Nat
  dataBytes : Nat
deriving DecidableEq, Repr

/-- `NewWriter` after option processing (an explicit channel count; the
Go default is 1 when the option is absent), over a fresh empty sink. -/
def newWriter (sampleType : SampleType) (sampleRate channelCount : Nat) : Writer :=
  let formatChunkData := newFormatChunkData channelCount sampleRate sampleType
  { base := ⟨[], 0⟩
    sampleType := sampleType
    formatChunkData := formatChunkData
    factChunkData := if formatChunkData.formatCode ≠ formatCodePCM then some 0 else none
    dataBytes := 0 }

/-- `Writer.getRootChunk`: the root RIFF chunk wrapping the format chunk,
the fact chunk when present, and the data chunk header (with the running
byte count as declared size and no body).  A failing format-chunk
serialization is ignored by the Go code (leaving a zero `Chunk`); it
cannot happen for writer-constructed format data. -/
def Writer.getRootChunk (w : Writer) : Chunk :=
  let formatChunk : Chunk :=
    match w.formatChunkData.serialize with
    | .ok body => { id := formatChunkID, size := body.length, body := body }
    | _ => { id := [0, 0, 0, 0], size := 0, body := [] }
  let subChunks :=
    [formatChunk] ++
    (match w.factChunkData with
     | some sf => [{ id := factChunkID, size := (serializeFactChunk sf).length,
                     body := serializeFactChunk sf }]
     | none => []) ++
    [{ id := dataChunkID, size := w.dataBytes, body := [] }]
  newRIFFChunk subChunks

/-- `Writer.writePreamble`: rewinds the sink to the start and (re)writes
the serialized root chunk, leaving the head just past the preamble. -/
def Writer.writePreamble (w : Writer) : Writer :=
  { w with base := w.base.seekToStart.write w.getRootChunk.serialize }

/-- The shared body of the `WriteXXX` methods (`writeInterleaved` /
`writeInterleavedInt24`, applied to the already-encoded bytes): on the
first append (running count still zero) writes the preamble, then seeks
to the end of the sink and appends the encoded bytes. -/
def Writer.writeData (w : Writer) (bytes : List Nat) : Writer :=
  let w1 := if w.dataBytes = 0 then w.writePreamble else w
  { w1 with base := w1.base.seekToEnd.write bytes }

/-- `binary.Write` of one `int16` in little-endian order (two's
complement). -/
def encInt16 (x : Int) : List Nat :=
  toLE16 (x % 65536).toNat

def encInt16List : List Int → List Nat
  | [] => []
  | x :: rest => encInt16 x ++ encInt16List rest

/-- `binary.Write` of one `int32` in little-endian order (two's
complement). -/
def encInt32 (x : Int) : List Nat :=
  toLE32 (x % 4294967296).toNat

def encInt32List : List Int → List Nat
  | [] => []
  | x :: rest => encInt32 x ++ encInt32List rest

/-- `binary.Write` of `float32` values in little-endian order.  A float
sample is modelled by its IEEE-754 bit pattern (`math.Float32bits`),
which is what `binary.Write` serializes. -/
def encFloat32List : List Nat → List Nat
  | [] => []
  | x :: rest => toLE32 x ++ encFloat32List rest

/-- `binary.Write` of `float64` values in little-endian order, on bit
patterns (`math.Float64bits`). -/
def encFloat64List : List Nat → List Nat
  | [] => []
  | x :: rest => toLE64 x ++ encFloat64List rest

/-- `Writer.WriteUint8`: type check, append, and `uint32` increment of
the running byte count.  Returns the Go error result together with the
post-state (the state is untouched when the type check fails). -/
def Writer.writeUint8 (w : Writer) (data : List Nat) : Option Err × Writer :=
  if w.sampleType ≠ .uint8 then (some .writerExpectedUint8, w)
  else
    let w1 := w.writeData data
    (none, { w1 with dataBytes := (w1.dataBytes + 1 * data.length) % 4294967296 })

/-- `Writer.WriteInt16`. -/
def Writer.writeInt16 (w : Writer) (data : List Int) : Option Err × Writer :=
  if w.sampleType ≠ .int16 then (some .writerExpectedInt16, w)
  else
    let w1 := w.writeData (encInt16List data)
    (none, { w1 with dataBytes := (w1.dataBytes + 2 * data.length) % 4294967296 })

/-- `Writer.WriteInt24`: encodes through the Int24 packer. -/
def Writer.writeInt24 (w : Writer) (data : List Int) : Option Err × Writer :=
  if w.sampleType ≠ .int24 then (some .writerExpectedInt24, w)
  else
    let w1 := w.writeData (writePackedInt24 data)
    (none, { w1 with dataBytes := (w1.dataBytes + 3 * data.length) % 4294967296 })

/-- `Writer.WriteInt32`. -/
def Writer.writeInt32 (w : Writer) (data : List Int) : Option Err × Writer :=
  if w.sampleType ≠ .int32 then (some .writerExpectedInt32, w)
  else
    let w1 := w.writeData (encInt32List data)
    (none, { w1 with dataBytes := (w1.dataBytes + 4 * data.length) % 4294967296 })

/-- `Writer.WriteFloat32` (samples as bit patterns). -/
def Writer.writeFloat32 (w : Writer) (data : List Nat) : Option Err × Writer :=
  if w.sampleType ≠ .float32 then (some .writerExpectedFloat32, w)
  else
    let w1 := w.writeData (encFloat32List data)
    (none, { w1 with dataBytes := (w1.dataBytes + 4 * data.length) % 4294967296 })

/-- `Writer.WriteFloat64` (samples as bit patterns). -/
def Writer.writeFloat64 (w : Writer) (data : List Nat) : Option Err × Writer :=
  if w.sampleType ≠ .float64 then (some .writerExpectedFloat64, w)
  else
    let w1 := w.writeData (encFloat64List data)
    (none, { w1 with dataBytes := (w1.dataBytes + 8 * data.length) % 4294967296 })

/-- `Writer.Flush`: fails with the invalid-byte-count error when the
accumulated bytes are not a multiple of the block align (before touching
the sink); Go panics when the block align is zero (`%` by zero).  Then
updates the fact chunk's frame count when a fact chunk exists, appends
one zero padding byte at the current head when the accumulated count is
odd, and rewrites the preamble at offset 0. -/
def Writer.flush (w : Writer) : GoResult (Option Err × Writer) :=
  if w.formatChunkData.blockAlign = 0 then .panic
  else if w.dataBytes % w.formatChunkData.blockAlign ≠ 0 then
    .ok (some .writerInvalidByteCount, w)
  else
    let w1 :=
      match w.factChunkData with
      | some _ =>
        { w with factChunkData := some (w.dataBytes / w.formatChunkData.blockAlign) }
      | none => w
    let w2 := if w1.dataBytes % 2 = 1 then { w1 with base := w1.base.write [0] } else w1
    .ok (none, w2.writePreamble)

/-- One operation of a writer's lifetime: a typed append or a flush. -/
inductive WriterOp where
  | writeUint8 (data : List Nat)
  | writeInt16 (data : List Int)
  | writeInt24 (data : List Int)
  | writeInt32 (data : List Int)
  | writeFloat32 (data : List Nat)
  | writeFloat64 (data : List Nat)
  | flush

/-- Running one operation on a writer. -/
def applyOp (w : Writer) : WriterOp → GoResult (Option Err × Writer)
  | .writeUint8 data => .ok (w.writeUint8 data)
  | .writeInt16 data => .ok (w.writeInt16 data)
  | .writeInt24 data => .ok (w.writeInt24 data)
  | .writeInt32 data => .ok (w.writeInt32 data)
  | .writeFloat32 data => .ok (w.writeFloat32 data)
  | .writeFloat64 data => .ok (w.writeFloat64 data)
  | .flush => w.flush

/-- One successful (no error returned, no panic) operation step. -/
def StepOk (w w' : Writer) : Prop :=
  ∃ op, applyOp w op = .ok (none, w')

/-- The writer states reachable from `w` by successful operations. -/
def ReachableFrom (w w' : Writer) : Prop :=
  Relation.ReflTransGen StepOk w w'



/-! ## The buffered typed reader (`wave/reader.go`)

`Reader` wraps an `io.ReadSeeker` (here an in-memory byte source) with a
lazily parsed header and an `io.LimitReader` over the data chunk.  The
base stream position and the `LimitReader` budget are modelled by the
`pos` and `dataRemaining` fields. -/

/-- Reader state: the full input bytes, the read position, the memoized
header, and the `io.LimitReader` budget of data-chunk bytes not yet
consumed. -/
structure Reader where
  data : List Nat
  pos : Nat
  header : Option Header
  dataRemaining : Nat
deriving DecidableEq, Repr

/-- `NewReader` over an in-memory byte source. -/
def newReader (data : List Nat) : Reader :=
  { data := data, pos := 0, header := none, dataRemaining := 0 }

/-- `Reader.Header`: lazy and memoized.  The first call runs the RIFF
scan (`ReadRIFFChunk`) and the header build
(`parseHeaderFromRIFFChunk`), leaves the base stream at the start of
the data chunk, and installs the `io.LimitReader` bounding data reads
to the declared data-chunk length. -/
def Reader.getHeader (r : Reader) : GoResult (Header × Reader) :=
  match r.header with
  | some h => .ok (h, r)
  | none =>
    match readRIFFChunk r.data with
    | .ok (fileSize, chunks, dataOff) =>
      match parseHeaderFromRIFFChunk fileSize chunks with
      | .ok h =>
          .ok (h, { r with pos := dataOff, header := some h,
                           dataRemaining := h.dataBytes })
      | .error e => .error e
      | .panic => .panic
    | .error e => .error e
    | .panic => .panic

/-- `Reader.readChunk`: `io.ReadFull` of up to `maxBytes` from the
`LimitReader` over the data chunk, staged through the reader's scratch
buffer: full reads return no error, short nonzero reads return
`io.ErrUnexpectedEOF`, and empty reads return `io.EOF`.  Returns the
freshly read bytes (`buffer[:bytesRead]`) and the post-state. -/
def Reader.readChunk (r : Reader) (maxBytes : Nat) : List Nat × Option Err × Reader :=
  let avail := min (r.data.length - r.pos) r.dataRemaining
  if maxBytes = 0 then ([], none, r)
  else if avail = 0 then ([], some .eof, r)
  else if avail < maxBytes then
    ((r.data.drop r.pos).take avail, some .unexpectedEOF,
      { r with pos := r.pos + avail, dataRemaining := r.dataRemaining - avail })
  else
    ((r.data.drop r.pos).take maxBytes, none,
      { r with pos := r.pos + maxBytes, dataRemaining := r.dataRemaining - maxBytes })

/-- `int16(binary.LittleEndian.Uint16(...))`: two's-complement
reinterpretation of a 16-bit pattern. -/
def int16OfU16 (v : Nat) : Int :=
  if v < 32768 then (v : Int) else (v : Int) - 65536

/-- `int32(binary.LittleEndian.Uint32(...))`: two's-complement
reinterpretation of a 32-bit pattern. -/
def int32OfU32 (v : Nat) : Int :=
  if v < 2147483648 then (v : Int) else (v : Int) - 4294967296

/-- The `ReadInt16` decode loop over the freshly read bytes (one element
per full 2-byte group, `bytesRead / 2` elements in total). -/
def decInt16List : List Nat → List Int
  | b0 :: b1 :: rest => int16OfU16 (leNat [b0, b1]) :: decInt16List rest
  | _ => []

/-- The `ReadInt32` decode loop. -/
def decInt32List : List Nat → List Int
  | b0 :: b1 :: b2 :: b3 :: rest => int32OfU32 (leNat [b0, b1, b2, b3]) :: decInt32List rest
  | _ => []

/-- The `ReadFloat32` decode loop (`math.Float32frombits` of the
little-endian 32-bit pattern; elements are modelled as bit patterns). -/
def decFloat32List : List Nat → List Nat
  | b0 :: b1 :: b2 :: b3 :: rest => leNat [b0, b1, b2, b3] :: decFloat32List rest
  | _ => []

/-- The `ReadFloat64` decode loop (`math.Float64frombits`, on bit
patterns). -/
def decFloat64List : List Nat → List Nat
  | b0 :: b1 :: b2 :: b3 :: b4 :: b5 :: b6 :: b7 :: rest =>
      leNat [b0, b1, b2, b3, b4, b5, b6, b7] :: decFloat64List rest
  | _ => []

/-- `Reader.ReadUint8` for a caller buffer of `count` elements: header
access, sample-type check, then one bare `dataReader.Read` straight
into the caller's buffer — no staging and no `io.ReadFull` loop.  The
`LimitReader` returns `io.EOF` when its budget is exhausted, the byte
source returns `io.EOF` at end of stream, and otherwise a single read
returns `min(len(data), available)` bytes with no error — a partial
nonzero read carries a nil error.  Returned errors are `.ok` results
carrying the error; `.panic` propagates a Go panic from header
parsing. -/
def Reader.readUint8 (r : Reader) (count : Nat) :
    GoResult ((List Nat × Nat × Option Err) × Reader) :=
  match r.getHeader with
  | .panic => .panic
  | .error e => .ok (([], 0, some e), r)
  | .ok (h, r1) =>
    match h.sampleType with
    | .panic => .panic
    | .error e => .ok (([], 0, some e), r1)
    | .ok st =>
      if st ≠ .uint8 then .ok (([], 0, some .readerUnexpectedUint8), r1)
      else if r1.dataRemaining = 0 then .ok (([], 0, some .eof), r1)
      else if r1.data.length - r1.pos = 0 then .ok (([], 0, some .eof), r1)
      else
        let n := min count (min (r1.data.length - r1.pos) r1.dataRemaining)
        .ok (((r1.data.drop r1.pos).take n, n, none),
          { r1 with pos := r1.pos + n, dataRemaining := r1.dataRemaining - n })

/-- `Reader.ReadInt16`: header access, sample-type check, staged read of
`count * 2` bytes, little-endian decode of the full 2-byte groups. -/
def Reader.readInt16 (r : Reader) (count : Nat) :
    GoResult ((List Int × Nat × Option Err) × Reader) :=
  match r.getHeader with
  | .panic => .panic
  | .error e => .ok (([], 0, some e), r)
  | .ok (h, r1) =>
    match h.sampleType with
    | .panic => .panic
    | .error e => .ok (([], 0, some e), r1)
    | .ok st =>
      if st ≠ .int16 then .ok (([], 0, some .readerUnexpectedInt16), r1)
      else
        let res := r1.readChunk (count * 2)
        .ok ((decInt16List res.1, res.1.length / 2, res.2.1), res.2.2)

/-- `Reader.ReadInt24`: staged read of `count * 3` bytes, then
`ReadPackedInt24Into` on the bytes truncated to full 3-byte groups. -/
def Reader.readInt24 (r : Reader) (count : Nat) :
    GoResult ((List Int × Nat × Option Err) × Reader) :=
  match r.getHeader with
  | .panic => .panic
  | .error e => .ok (([], 0, some e), r)
  | .ok (h, r1) =>
    match h.sampleType with
    | .panic => .panic
    | .error e => .ok (([], 0, some e), r1)
    | .ok st =>
      if st ≠ .int24 then .ok (([], 0, some .readerUnexpectedInt24), r1)
      else
        let res := r1.readChunk (count * 3)
        .ok ((unpackInt24List res.1, res.1.length / 3, res.2.1), res.2.2)

/-- `Reader.ReadInt32`. -/
def Reader.readInt32 (r : Reader) (count : Nat) :
    GoResult ((List Int × Nat × Option Err) × Reader) :=
  match r.getHeader with
  | .panic => .panic
  | .error e => .ok (([], 0, some e), r)
  | .ok (h, r1) =>
    match h.sampleType with
    | .panic => .panic
    | .error e => .ok (([], 0, some e), r1)
    | .ok st =>
      if st ≠ .int32 then .ok (([], 0, some .readerUnexpectedInt32), r1)
      else
        let res := r1.readChunk (count * 4)
        .ok ((decInt32List res.1, res.1.length / 4, res.2.1), res.2.2)

/-- `Reader.ReadFloat32` (elements as bit patterns). -/
def Reader.readFloat32 (r : Reader) (count : Nat) :
    GoResult ((List Nat × Nat × Option Err) × Reader) :=
  match r.getHeader with
  | .panic => .panic
  | .error e => .ok (([], 0, some e), r)
  | .ok (h, r1) =>
    match h.sampleType with
    | .panic => .panic
    | .error e => .ok (([], 0, some e), r1)
    | .ok st =>
      if st ≠ .float32 then .ok (([], 0, some .readerUnexpectedFloat32), r1)
      else
        let res := r1.readChunk (count * 4)
        .ok ((decFloat32List res.1, res.1.length / 4, res.2.1), res.2.2)

/-- `Reader.ReadFloat64` (elements as bit patterns). -/
def Reader.readFloat64 (r : Reader) (count : Nat) :
    GoResult ((List Nat × Nat × Option Err) × Reader) :=
  match r.getHeader with
  | .panic => .panic
  | .error e => .ok (([], 0, some e), r)
  | .ok (h, r1) =>
    match h.sampleType with
    | .panic => .panic
    | .error e => .ok (([], 0, some e), r1)
    | .ok st =>
      if st ≠ .float64 then .ok (([], 0, some .readerUnexpectedFloat64), r1)
      else
        let res := r1.readChunk (count * 8)
        .ok ((decFloat64List res.1, res.1.length / 8, res.2.1), res.2.2)



/-! ## Basic lemmas about the sink and the sample encodings -/

theorem BWriter.write_empty (p : List Nat) :
    BWriter.write ⟨[], 0⟩ p = ⟨p, p.length⟩ := by
  simp [BWriter.write]

theorem BWriter.write_at_end (buf p : List Nat) :
    BWriter.write ⟨buf, buf.length⟩ p = ⟨buf ++ p, buf.length + p.length⟩ := by
  simp [BWriter.write]

theorem encInt16List_length (xs : List Int) :
    (encInt16List xs).length = 2 * xs.length := by
  induction xs with
  | nil => rfl
  | cons x rest ih =>
    simp only [encInt16List, List.length_append, List.length_cons, ih, encInt16,
      toLE16_length]
    ring

theorem encInt32List_length (xs : List Int) :
    (encInt32List xs).length = 4 * xs.length := by
  induction xs with
  | nil => rfl
  | cons x rest ih =>
    simp only [encInt32List, List.length_append, List.length_cons, ih, encInt32,
      toLE32_length]
    ring

theorem encFloat32List_length (xs : List Nat) :
    (encFloat32List xs).length = 4 * xs.length := by
  induction xs with
  | nil => rfl
  | cons x rest ih =>
    simp only [encFloat32List, List.length_append, List.length_cons, ih, toLE32_length]
    ring

theorem encFloat64List_length (xs : List Nat) :
    (encFloat64List xs).length = 8 * xs.length := by
  induction xs with
  | nil => rfl
  | cons x rest ih =>
    simp only [encFloat64List, List.length_append, List.length_cons, ih, toLE64_length]
    ring

theorem listAppend_nil {α : Type} (xs : List α) : List.append [] xs = xs := rfl

/-- Two's-complement `int16` reinterpretation inverts reduction mod `2^16`
on in-range values. -/
theorem int16OfU16_emod (x : Int) (h1 : -32768 ≤ x) (h2 : x < 32768) :
    int16OfU16 (x % 65536).toNat = x := by
  have hu : (((x % 65536).toNat : Int)) = x % 65536 := by omega
  simp only [int16OfU16]
  split <;> omega

/-- Two's-complement `int32` reinterpretation inverts reduction mod `2^32`
on in-range values. -/
theorem int32OfU32_emod (x : Int) (h1 : -2147483648 ≤ x) (h2 : x < 2147483648) :
    int32OfU32 (x % 4294967296).toNat = x := by
  have hu : (((x % 4294967296).toNat : Int)) = x % 4294967296 := by omega
  simp only [int32OfU32]
  split <;> omega

/-- Little-endian `int16` decode inverts the encode on in-range values. -/
theorem decInt16List_encInt16List (xs : List Int)
    (hr : ∀ x ∈ xs, -32768 ≤ x ∧ x < 32768) :
    decInt16List (encInt16List xs) = xs := by
  induction xs with
  | nil => rfl
  | cons x rest ih =>
    have hx := hr x (List.mem_cons_self x rest)
    have hrest : ∀ y ∈ rest, -32768 ≤ y ∧ y < 32768 := fun y hy =>
      hr y (List.mem_cons_of_mem x hy)
    simp only [encInt16List, encInt16, toLE16, List.cons_append, List.nil_append,
      listAppend_nil, decInt16List, leNat]
    have h1 : (x % 65536).toNat % 256 + 256 * ((x % 65536).toNat / 256 % 256 + 256 * 0)
        = (x % 65536).toNat := by omega
    rw [h1, int16OfU16_emod x hx.1 hx.2, ih hrest]

/-- Little-endian `int32` decode inverts the encode on in-range values. -/
theorem decInt32List_encInt32List (xs : List Int)
    (hr : ∀ x ∈ xs, -2147483648 ≤ x ∧ x < 2147483648) :
    decInt32List (encInt32List xs) = xs := by
  induction xs with
  | nil => rfl
  | cons x rest ih =>
    have hx := hr x (List.mem_cons_self x rest)
    have hrest : ∀ y ∈ rest, -2147483648 ≤ y ∧ y < 2147483648 := fun y hy =>
      hr y (List.mem_cons_of_mem x hy)
    simp only [encInt32List, encInt32, toLE32, List.cons_append, List.nil_append,
      listAppend_nil, decInt32List, leNat]
    have h1 : (x % 4294967296).toNat % 256 + 256 * ((x % 4294967296).toNat / 256 % 256 +
        256 * ((x % 4294967296).toNat / 65536 % 256 +
          256 * ((x % 4294967296).toNat / 16777216 % 256 + 256 * 0)))
        = (x % 4294967296).toNat := by omega
    rw [h1, int32OfU32_emod x hx.1 hx.2, ih hrest]

/-- Little-endian 32-bit pattern decode inverts the encode. -/
theorem decFloat32List_encFloat32List (xs : List Nat)
    (hr : ∀ x ∈ xs, x < 4294967296) :
    decFloat32List (encFloat32List xs) = xs := by
  induction xs with
  | nil => rfl
  | cons x rest ih =>
    have hx := hr x (List.mem_cons_self x rest)
    have hrest : ∀ y ∈ rest, y < 4294967296 := fun y hy =>
      hr y (List.mem_cons_of_mem x hy)
    simp only [encFloat32List, toLE32, List.cons_append, List.nil_append,
      listAppend_nil, decFloat32List, leNat]
    have h1 : x % 256 + 256 * (x / 256 % 256 + 256 * (x / 65536 % 256 +
        256 * (x / 16777216 % 256 + 256 * 0))) = x := by omega
    rw [h1, ih hrest]

/-- Little-endian 64-bit pattern decode inverts the encode. -/
theorem decFloat64List_encFloat64List (xs : List Nat)
    (hr : ∀ x ∈ xs, x < 18446744073709551616) :
    decFloat64List (encFloat64List xs) = xs := by
  induction xs with
  | nil => rfl
  | cons x rest ih =>
    have hx := hr x (List.mem_cons_self x rest)
    have hrest : ∀ y ∈ rest, y < 18446744073709551616 := fun y hy =>
      hr y (List.mem_cons_of_mem x hy)
    simp only [encFloat64List, toLE64, List.cons_append, List.nil_append,
      listAppend_nil, decFloat64List, leNat]
    have h1 : x % 256 + 256 * (x / 256 % 256 + 256 * (x / 65536 % 256 +
        256 * (x / 16777216 % 256 + 256 * (x / 4294967296 % 256 +
        256 * (x / 1099511627776 % 256 + 256 * (x / 281474976710656 % 256 +
        256 * (x / 72057594037927936 % 256 + 256 * 0))))))) = x := by omega
    rw [h1, ih hrest]



/-! ## The preamble length invariant -/

/-- The byte length of a writer's serialized format chunk body, as a
function of the format chunk data alone. -/
def fmtBodyLen (c : FormatChunkData) : Nat :=
  match c.serialize with
  | .ok body => body.length
  | _ => 0

/-- The serialized preamble's byte length is determined by the format
chunk data and the presence of the fact chunk alone — in particular it
does not depend on the running data byte count. -/
theorem getRootChunk_serialize_length (w : Writer) :
    w.getRootChunk.serialize.length =
      28 + fmtBodyLen w.formatChunkData +
        (if w.factChunkData.isSome then 12 else 0) := by
  unfold Writer.getRootChunk fmtBodyLen
  cases hs : w.formatChunkData.serialize <;>
    cases hf : w.factChunkData <;>
      · simp [Chunk.serialize, newRIFFChunk, riffBody, serializeSubChunks,
          serializeFactChunk, riffChunkID, waveID, formatChunkID, factChunkID,
          dataChunkID, toLE32] <;> omega

/-- Every successful operation preserves the format chunk data and the
presence of the fact chunk (flush may change the fact chunk's value, but
never allocates or removes it). -/
theorem stepOk_preserves (w w' : Writer) (h : StepOk w w') :
    w'.formatChunkData = w.formatChunkData ∧
      w'.factChunkData.isSome = w.factChunkData.isSome := by
  obtain ⟨op, hop⟩ := h
  cases op with
  | writeUint8 data =>
    simp only [applyOp, Writer.writeUint8] at hop
    split at hop
    · simp at hop
    · simp only [GoResult.ok.injEq, Prod.mk.injEq] at hop
      rw [← hop.2]
      simp [Writer.writeData, Writer.writePreamble]
      split <;> simp
  | writeInt16 data =>
    simp only [applyOp, Writer.writeInt16] at hop
    split at hop
    · simp at hop
    · simp only [GoResult.ok.injEq, Prod.mk.injEq] at hop
      rw [← hop.2]
      simp [Writer.writeData, Writer.writePreamble]
      split <;> simp
  | writeInt24 data =>
    simp only [applyOp, Writer.writeInt24] at hop
    split at hop
    · simp at hop
    · simp only [GoResult.ok.injEq, Prod.mk.injEq] at hop
      rw [← hop.2]
      simp [Writer.writeData, Writer.writePreamble]
      split <;> simp
  | writeInt32 data =>
    simp only [applyOp, Writer.writeInt32] at hop
    split at hop
    · simp at hop
    · simp only [GoResult.ok.injEq, Prod.mk.injEq] at hop
      rw [← hop.2]
      simp [Writer.writeData, Writer.writePreamble]
      split <;> simp
  | writeFloat32 data =>
    simp only [applyOp, Writer.writeFloat32] at hop
    split at hop
    · simp at hop
    · simp only [GoResult.ok.injEq, Prod.mk.injEq] at hop
      rw [← hop.2]
      simp [Writer.writeData, Writer.writePreamble]
      split <;> simp
  | writeFloat64 data =>
    simp only [applyOp, Writer.writeFloat64] at hop
    split at hop
    · simp at hop
    · simp only [GoResult.ok.injEq, Prod.mk.injEq] at hop
      rw [← hop.2]
      simp [Writer.writeData, Writer.writePreamble]
      split <;> simp
  | flush =>
    simp only [applyOp, Writer.flush] at hop
    split at hop
    · simp at hop
    · split at hop
      · simp at hop
      · simp only [GoResult.ok.injEq, Prod.mk.injEq] at hop
        rw [← hop.2]
        refine ⟨?_, ?_⟩
        · cases hf : w.factChunkData <;> split <;> simp [Writer.writePreamble, hf]
        · cases hf : w.factChunkData <;> split <;> simp [Writer.writePreamble, hf]

/-- Format chunk data and fact-chunk presence are invariants of the
writer's whole lifetime. -/
theorem reachable_preserves (w w' : Writer) (h : ReachableFrom w w') :
    w'.formatChunkData = w.formatChunkData ∧
      w'.factChunkData.isSome = w.factChunkData.isSome := by
  induction h with
  | refl => exact ⟨rfl, rfl⟩
  | tail _ hstep ih =>
    have hp := stepOk_preserves _ _ hstep
    exact ⟨hp.1.trans ih.1, hp.2.trans ih.2⟩



/-! ## Serialize/deserialize round trip for the format chunk -/

/-- Serialization of a plain-PCM format chunk: the 16 mandatory bytes. -/
theorem serialize_plainPCM (c : FormatChunkData)
    (hfc : c.formatCode = formatCodePCM) :
    c.serialize = .ok (toLE16 c.formatCode ++ toLE16 c.channelCount ++
      toLE32 c.frameRate ++ toLE32 c.byteRate ++ toLE16 c.blockAlign ++
      toLE16 c.bitsPerSample) := by
  simp [FormatChunkData.serialize, hfc, formatCodePCM, formatCodeIEEEFloat,
    formatCodeExtensible]

/-- Deserializing the 16 mandatory bytes recovers a format chunk whose
fields are in their `uint16`/`uint32` ranges and whose extension fields
are absent. -/
theorem deser_plain16 (c : FormatChunkData)
    (hfc : c.formatCode < 65536)
    (hcc : c.channelCount < 65536) (hrate : c.frameRate < 4294967296)
    (hbr : c.byteRate < 4294967296) (hba : c.blockAlign < 65536)
    (hbits : c.bitsPerSample < 65536)
    (hvb : c.validBitsPerSample = none) (hcm : c.channelMask = none)
    (hsf : c.subFormat = none) :
    deserializeFormatChunk (toLE16 c.formatCode ++ toLE16 c.channelCount ++
      toLE32 c.frameRate ++ toLE32 c.byteRate ++ toLE16 c.blockAlign ++
      toLE16 c.bitsPerSample) = .ok c := by
  simp only [deserializeFormatChunk, toLE16, toLE32, readU16At, readU32At, leNat,
    List.cons_append, List.nil_append, List.drop, List.take, List.length_cons,
    List.length_nil]
  norm_num
  cases c
  simp_all
  omega

/-- Serialization of an IEEE-float format chunk: the 16 mandatory bytes
plus the zero extension-size field. -/
theorem serialize_ieee (c : FormatChunkData)
    (hfc : c.formatCode = formatCodeIEEEFloat) :
    c.serialize = .ok (toLE16 c.formatCode ++ toLE16 c.channelCount ++
      toLE32 c.frameRate ++ toLE32 c.byteRate ++ toLE16 c.blockAlign ++
      toLE16 c.bitsPerSample ++ toLE16 0) := by
  simp [FormatChunkData.serialize, hfc, formatCodePCM, formatCodeIEEEFloat,
    formatCodeExtensible]

/-- Deserializing the 18-byte IEEE-float layout (extension size zero)
recovers the chunk with absent extension fields. -/
theorem deser_ieee18 (c : FormatChunkData)
    (hfc : c.formatCode < 65536)
    (hcc : c.channelCount < 65536) (hrate : c.frameRate < 4294967296)
    (hbr : c.byteRate < 4294967296) (hba : c.blockAlign < 65536)
    (hbits : c.bitsPerSample < 65536)
    (hvb : c.validBitsPerSample = none) (hcm : c.channelMask = none)
    (hsf : c.subFormat = none) :
    deserializeFormatChunk (toLE16 c.formatCode ++ toLE16 c.channelCount ++
      toLE32 c.frameRate ++ toLE32 c.byteRate ++ toLE16 c.blockAlign ++
      toLE16 c.bitsPerSample ++ toLE16 0) = .ok c := by
  simp only [deserializeFormatChunk, toLE16, toLE32, readU16At, readU32At, leNat,
    List.cons_append, List.nil_append, List.drop, List.take, List.length_cons,
    List.length_nil]
  norm_num
  cases c
  simp_all
  omega

/-- Serialization of an extensible format chunk with all three extension
fields present: the 40-byte layout. -/
theorem serialize_ext (c : FormatChunkData)
    (hfc : c.formatCode = formatCodeExtensible)
    (vb cm sf : Nat)
    (hvb : c.validBitsPerSample = some vb) (hcm : c.channelMask = some cm)
    (hsf : c.subFormat = some sf) :
    c.serialize = .ok (toLE16 c.formatCode ++ toLE16 c.channelCount ++
      toLE32 c.frameRate ++ toLE32 c.byteRate ++ toLE16 c.blockAlign ++
      toLE16 c.bitsPerSample ++ toLE16 22 ++ toLE16 vb ++ toLE32 cm ++
      toLE16 sf ++ subFormatGUIDTail) := by
  simp [FormatChunkData.serialize, hfc, hvb, hcm, hsf, formatCodePCM,
    formatCodeIEEEFloat, formatCodeExtensible]

set_option maxHeartbeats 2000000 in
/-- Deserializing the 40-byte extensible layout recovers the chunk,
extension fields included. -/
theorem deser_ext40 (c : FormatChunkData)
    (hfc : c.formatCode < 65536)
    (hcc : c.channelCount < 65536) (hrate : c.frameRate < 4294967296)
    (hbr : c.byteRate < 4294967296) (hba : c.blockAlign < 65536)
    (hbits : c.bitsPerSample < 65536)
    (vb cm sf : Nat) (hv : vb < 65536) (hc : cm < 4294967296) (hs : sf < 65536)
    (hvb : c.validBitsPerSample = some vb) (hcm : c.channelMask = some cm)
    (hsf : c.subFormat = some sf) :
    deserializeFormatChunk (toLE16 c.formatCode ++ toLE16 c.channelCount ++
      toLE32 c.frameRate ++ toLE32 c.byteRate ++ toLE16 c.blockAlign ++
      toLE16 c.bitsPerSample ++ toLE16 22 ++ toLE16 vb ++ toLE32 cm ++
      toLE16 sf ++ subFormatGUIDTail) = .ok c := by
  simp only [deserializeFormatChunk, toLE16, toLE32, subFormatGUIDTail,
    readU16At, readU32At, leNat,
    List.cons_append, List.nil_append, List.drop, List.take, List.length_cons,
    List.length_nil]
  norm_num
  cases c
  simp_all
  omega

/-! ## Unfolding lemmas for the RIFF scan -/

/-- `readFullAt` succeeds exactly on in-bounds reads. -/
theorem readFullAt_of_le (data : List Nat) (off n : Nat) (h : off + n ≤ data.length) :
    readFullAt data off n = some ((data.drop off).take n) := by
  unfold readFullAt
  split
  · rename_i h0
    subst h0
    simp
  · simp [h]

/-- The scan loop stops as soon as the offset reaches the declared file
size. -/
theorem scanChunks_done (data : List Nat) (fileSize off dataOff fuel : Nat)
    (h : fileSize ≤ off) (hf : fuel ≠ 0) :
    scanChunks data fileSize off dataOff fuel = .ok ([], dataOff) := by
  cases fuel with
  | zero => exact absurd rfl hf
  | succ f => simp [scanChunks, h]

/-- One scan iteration over a serialized non-data chunk of even size
consumes its serialization and records the chunk. -/
theorem scanChunks_step_nondata
    (data : List Nat) (fileSize off dataOff fuel : Nat) (c : Chunk) (rest : List Nat)
    (hfuel : fuel ≠ 0)
    (hlt : off < fileSize)
    (hid : c.id.length = 4)
    (hne : c.id ≠ dataChunkID)
    (hsz : c.size < 4294967296)
    (hbody : c.body.length = c.size)
    (heven : c.size % 2 = 0)
    (hdrop : data.drop off = c.serialize ++ rest)
    (hbound : off + 8 + c.size ≤ data.length) :
    scanChunks data fileSize off dataOff fuel =
      match scanChunks data fileSize (off + 8 + c.size) dataOff (fuel - 1) with
      | .ok (chunks, dOff) => .ok (c :: chunks, dOff)
      | r => r := by
  obtain ⟨f, rfl⟩ : ∃ f, fuel = f + 1 := ⟨fuel - 1, by omega⟩
  have hid4 : readFullAt data off 4 = some c.id := by
    rw [readFullAt_of_le data off 4 (by omega), hdrop, Chunk.serialize]
    simp only [List.append_assoc]
    rw [List.take_left' hid]
  have hsz4 : readFullAt data (off + 4) 4 = some (toLE32 c.size) := by
    rw [readFullAt_of_le data (off + 4) 4 (by omega)]
    have h1 : data.drop (off + 4) = (data.drop off).drop 4 :=
      (List.drop_drop 4 off data).symm
    rw [h1, hdrop, Chunk.serialize]
    simp only [List.append_assoc]
    rw [List.drop_left' hid, List.take_left' (toLE32_length c.size)]
  have hbody4 : readFullAt data (off + 8) c.size = some c.body := by
    rw [readFullAt_of_le data (off + 8) c.size (by omega)]
    have h1 : data.drop (off + 8) = ((data.drop off).drop 4).drop 4 := by
      rw [List.drop_drop, List.drop_drop]
    rw [h1, hdrop, Chunk.serialize]
    simp only [List.append_assoc]
    rw [List.drop_left' hid, List.drop_left' (toLE32_length c.size),
      List.take_left' hbody]
  simp only [scanChunks, hid4, hsz4]
  rw [if_neg (by omega : ¬ fileSize ≤ off)]
  rw [leNat_toLE32, Nat.mod_eq_of_lt hsz]
  rw [if_pos hne]
  simp only [hbody4]
  rw [if_neg (by omega : ¬ (c.size % 2 = 1 ∧ data.length ≤ off + 8 + c.size))]
  rw [heven]
  simp only [Nat.add_zero, Nat.add_sub_cancel]

/-- One scan iteration at the data chunk's header records the body
offset and seeks past body and padding without reading them. -/
theorem scanChunks_step_data
    (data : List Nat) (fileSize off dataOff fuel sz : Nat) (rest : List Nat)
    (hfuel : fuel ≠ 0)
    (hlt : off < fileSize)
    (hsz : sz < 4294967296)
    (hdrop : data.drop off = dataChunkID ++ (toLE32 sz ++ rest))
    (hbound : off + 8 ≤ data.length) :
    scanChunks data fileSize off dataOff fuel =
      match scanChunks data fileSize (off + 8 + sz + sz % 2) (off + 8) (fuel - 1) with
      | .ok (chunks, dOff) => .ok (⟨dataChunkID, sz, []⟩ :: chunks, dOff)
      | r => r := by
  obtain ⟨f, rfl⟩ : ∃ f, fuel = f + 1 := ⟨fuel - 1, by omega⟩
  have hidlen : (dataChunkID : List Nat).length = 4 := rfl
  have hid4 : readFullAt data off 4 = some dataChunkID := by
    rw [readFullAt_of_le data off 4 (by omega), hdrop]
    rw [List.take_left' hidlen]
  have hsz4 : readFullAt data (off + 4) 4 = some (toLE32 sz) := by
    rw [readFullAt_of_le data (off + 4) 4 (by omega)]
    have h1 : data.drop (off + 4) = (data.drop off).drop 4 :=
      (List.drop_drop 4 off data).symm
    rw [h1, hdrop]
    rw [List.drop_left' hidlen, List.take_left' (toLE32_length sz)]
  simp only [scanChunks, hid4, hsz4]
  rw [if_neg (by omega : ¬ fileSize ≤ off)]
  rw [leNat_toLE32, Nat.mod_eq_of_lt hsz]
  rw [if_neg (by simp : ¬ (dataChunkID : List Nat) ≠ dataChunkID)]
  simp only [Nat.add_sub_cancel]



/-- The padding list length is the parity of the byte count. -/
theorem padList_length (n : Nat) :
    ((if n % 2 = 1 then [0] else []) : List Nat).length = n % 2 := by
  split <;> simp <;> omega

/-- A serialized chunk occupies its 4-byte id, 4 size bytes and its body. -/
theorem chunk_serialize_len (c : Chunk) :
    c.serialize.length = c.id.length + 4 + c.body.length := by
  simp [Chunk.serialize, toLE32]
  omega

/-- Scanning a writer-produced stream without a fact chunk: the RIFF scan
returns the declared file size, the format and data chunks, and the data
offset just past the preamble. -/
theorem readRIFF_writer_stream_nofact
    (fmtBody : List Nat) (B : List Nat)
    (hfl : fmtBody.length % 2 = 0)
    (hfb : fmtBody.length ≤ 64)
    (hsmall : B.length + 200 < 4294967296) :
    readRIFFChunk
      ((newRIFFChunk [Chunk.mk formatChunkID fmtBody.length fmtBody,
         Chunk.mk dataChunkID B.length []]).serialize ++ B ++
        (if B.length % 2 = 1 then [0] else [])) =
      .ok (28 + fmtBody.length + B.length + B.length % 2,
        [Chunk.mk formatChunkID fmtBody.length fmtBody,
         Chunk.mk dataChunkID B.length []],
        28 + fmtBody.length) := by
  set pad : List Nat := if B.length % 2 = 1 then [0] else [] with hpad
  have hpadlen : pad.length = B.length % 2 := padList_length B.length
  -- the expected total size recorded in the root chunk
  have hsz : riffExpectedSize [Chunk.mk formatChunkID fmtBody.length fmtBody,
      Chunk.mk dataChunkID B.length []] =
      20 + fmtBody.length + B.length + B.length % 2 := by
    simp [riffExpectedSize]
    omega
  -- the stream, fully right-associated
  have hstream : (newRIFFChunk [Chunk.mk formatChunkID fmtBody.length fmtBody,
      Chunk.mk dataChunkID B.length []]).serialize ++ B ++ pad =
      riffChunkID ++ (toLE32 (20 + fmtBody.length + B.length + B.length % 2) ++
        (waveID ++ ((formatChunkID ++ (toLE32 fmtBody.length ++ fmtBody)) ++
          ((dataChunkID ++ (toLE32 B.length ++ ([] : List Nat))) ++ (B ++ pad))))) := by
    simp only [newRIFFChunk, Chunk.serialize, riffBody, serializeSubChunks, hsz,
      List.append_assoc, List.append_nil, List.nil_append]
  rw [hstream]
  set stream := riffChunkID ++ (toLE32 (20 + fmtBody.length + B.length + B.length % 2) ++
        (waveID ++ ((formatChunkID ++ (toLE32 fmtBody.length ++ fmtBody)) ++
          ((dataChunkID ++ (toLE32 B.length ++ ([] : List Nat))) ++ (B ++ pad))))) with hsdef
  have hslen : stream.length = 28 + fmtBody.length + B.length + B.length % 2 := by
    simp [hsdef, riffChunkID, waveID, formatChunkID, dataChunkID, toLE32]
    omega
  -- header reads
  have hr0 : readFullAt stream 0 4 = some riffChunkID := by
    rw [readFullAt_of_le stream 0 4 (by omega), hsdef]
    simp only [List.drop_zero]
    rw [List.take_left' (by rfl : (riffChunkID : List Nat).length = 4)]
  have hr4 : readFullAt stream 4 4 =
      some (toLE32 (20 + fmtBody.length + B.length + B.length % 2)) := by
    rw [readFullAt_of_le stream 4 4 (by omega), hsdef]
    rw [show (4 : Nat) = 0 + 4 from rfl]
    rw [← List.drop_drop, List.drop_zero,
      List.drop_left' (by rfl : (riffChunkID : List Nat).length = 4),
      List.take_left' (toLE32_length _)]
  have hr8 : readFullAt stream 8 4 = some waveID := by
    rw [readFullAt_of_le stream 8 4 (by omega), hsdef]
    rw [show List.drop 8 (riffChunkID ++ (toLE32 (20 + fmtBody.length + B.length + B.length % 2) ++
        (waveID ++ ((formatChunkID ++ (toLE32 fmtBody.length ++ fmtBody)) ++
          ((dataChunkID ++ (toLE32 B.length ++ ([] : List Nat))) ++ (B ++ pad)))))) =
      List.drop 4 (List.drop 4 (riffChunkID ++ (toLE32 (20 + fmtBody.length + B.length + B.length % 2) ++
        (waveID ++ ((formatChunkID ++ (toLE32 fmtBody.length ++ fmtBody)) ++
          ((dataChunkID ++ (toLE32 B.length ++ ([] : List Nat))) ++ (B ++ pad))))))) from by
        rw [List.drop_drop]]
    rw [List.drop_left' (by rfl : (riffChunkID : List Nat).length = 4),
      List.drop_left' (toLE32_length _),
      List.take_left' (by rfl : (waveID : List Nat).length = 4)]
  -- chunk scan
  have hdrop12 : stream.drop 12 =
      (Chunk.mk formatChunkID fmtBody.length fmtBody).serialize ++
        ((dataChunkID ++ (toLE32 B.length ++ ([] : List Nat))) ++ (B ++ pad)) := by
    rw [hsdef]
    rw [show (12 : Nat) = 4 + (4 + 4) from rfl, ← List.drop_drop, ← List.drop_drop]
    rw [List.drop_left' (by rfl : (riffChunkID : List Nat).length = 4)]
    rw [List.drop_left' (toLE32_length _)]
    rw [List.drop_left' (by rfl : (waveID : List Nat).length = 4)]
    simp only [Chunk.serialize, List.append_assoc]
  have hc1len : (Chunk.mk formatChunkID fmtBody.length fmtBody).serialize.length
      = 8 + fmtBody.length := by
    rw [chunk_serialize_len]
    rfl
  have hdropD : stream.drop (12 + 8 + fmtBody.length) =
      dataChunkID ++ (toLE32 B.length ++ (([] : List Nat) ++ (B ++ pad))) := by
    have h1 : stream.drop (12 + 8 + fmtBody.length)
        = (stream.drop 12).drop (8 + fmtBody.length) := by
      rw [List.drop_drop]
      congr 1
      omega
    rw [h1, hdrop12, List.drop_left' hc1len]
    simp only [List.append_assoc]
  -- the declared file size, as read back from the stream
  have hF : ((20 + fmtBody.length + B.length + B.length % 2) % 4294967296 + 8)
      % 4294967296 = 28 + fmtBody.length + B.length + B.length % 2 := by
    omega
  -- run the scan: format chunk, then the data chunk, then done
  have h_ne : (Chunk.mk formatChunkID fmtBody.length fmtBody).id ≠ dataChunkID := by
    show formatChunkID ≠ dataChunkID
    decide
  have h_sz : (Chunk.mk formatChunkID fmtBody.length fmtBody).size < 4294967296 := by
    show fmtBody.length < 4294967296
    omega
  have h_even : (Chunk.mk formatChunkID fmtBody.length fmtBody).size % 2 = 0 := hfl
  have hstep1 := scanChunks_step_nondata stream
    (28 + fmtBody.length + B.length + B.length % 2) 12 0
    (28 + fmtBody.length + B.length + B.length % 2 + 1)
    (Chunk.mk formatChunkID fmtBody.length fmtBody)
    ((dataChunkID ++ (toLE32 B.length ++ ([] : List Nat))) ++ (B ++ pad))
    (by omega) (by omega) rfl h_ne h_sz rfl h_even hdrop12
    (by show 12 + 8 + fmtBody.length ≤ stream.length
        rw [hslen]
        omega)
  have hstep2 := scanChunks_step_data stream
    (28 + fmtBody.length + B.length + B.length % 2) (12 + 8 + fmtBody.length) 0
    (28 + fmtBody.length + B.length + B.length % 2 + 1 - 1) B.length
    (([] : List Nat) ++ (B ++ pad))
    (by omega) (by omega) (by omega) hdropD
    (by rw [hslen]; omega)
  have hdone := scanChunks_done stream
    (28 + fmtBody.length + B.length + B.length % 2)
    (12 + 8 + fmtBody.length + 8 + B.length + B.length % 2)
    (12 + 8 + fmtBody.length + 8)
    (28 + fmtBody.length + B.length + B.length % 2 + 1 - 1 - 1)
    (by omega) (by omega)
  simp only [readRIFFChunk, hr0, hr4, hr8]
  rw [if_neg (by simp : ¬ (riffChunkID : List Nat) ≠ riffChunkID)]
  rw [if_neg (by simp : ¬ (waveID : List Nat) ≠ waveID)]
  rw [leNat_toLE32, hF]
  rw [hstep1, hstep2, hdone]
  rw [show 12 + 8 + fmtBody.length + 8 = 28 + fmtBody.length from by omega]

/-- Scanning a writer-produced stream with a fact chunk. -/
theorem readRIFF_writer_stream_fact
    (fmtBody : List Nat) (f : Nat) (B : List Nat)
    (hfl : fmtBody.length % 2 = 0)
    (hfb : fmtBody.length ≤ 64)
    (hsmall : B.length + 200 < 4294967296) :
    readRIFFChunk
      ((newRIFFChunk [Chunk.mk formatChunkID fmtBody.length fmtBody,
         Chunk.mk factChunkID 4 (toLE32 f),
         Chunk.mk dataChunkID B.length []]).serialize ++ B ++
        (if B.length % 2 = 1 then [0] else [])) =
      .ok (40 + fmtBody.length + B.length + B.length % 2,
        [Chunk.mk formatChunkID fmtBody.length fmtBody,
         Chunk.mk factChunkID 4 (toLE32 f),
         Chunk.mk dataChunkID B.length []],
        40 + fmtBody.length) := by
  set pad : List Nat := if B.length % 2 = 1 then [0] else [] with hpad
  have hpadlen : pad.length = B.length % 2 := padList_length B.length
  have hsz : riffExpectedSize [Chunk.mk formatChunkID fmtBody.length fmtBody,
      Chunk.mk factChunkID 4 (toLE32 f),
      Chunk.mk dataChunkID B.length []] =
      32 + fmtBody.length + B.length + B.length % 2 := by
    simp [riffExpectedSize]
    omega
  have hstream : (newRIFFChunk [Chunk.mk formatChunkID fmtBody.length fmtBody,
      Chunk.mk factChunkID 4 (toLE32 f),
      Chunk.mk dataChunkID B.length []]).serialize ++ B ++ pad =
      riffChunkID ++ (toLE32 (32 + fmtBody.length + B.length + B.length % 2) ++
        (waveID ++ ((formatChunkID ++ (toLE32 fmtBody.length ++ fmtBody)) ++
          ((factChunkID ++ (toLE32 4 ++ toLE32 f)) ++
            ((dataChunkID ++ (toLE32 B.length ++ ([] : List Nat))) ++ (B ++ pad)))))) := by
    simp only [newRIFFChunk, Chunk.serialize, riffBody, serializeSubChunks, hsz,
      List.append_assoc, List.append_nil, List.nil_append]
  rw [hstream]
  set stream := riffChunkID ++ (toLE32 (32 + fmtBody.length + B.length + B.length % 2) ++
        (waveID ++ ((formatChunkID ++ (toLE32 fmtBody.length ++ fmtBody)) ++
          ((factChunkID ++ (toLE32 4 ++ toLE32 f)) ++
            ((dataChunkID ++ (toLE32 B.length ++ ([] : List Nat))) ++ (B ++ pad)))))) with hsdef
  have hslen : stream.length = 40 + fmtBody.length + B.length + B.length % 2 := by
    simp [hsdef, riffChunkID, waveID, formatChunkID, factChunkID, dataChunkID, toLE32]
    omega
  have hr0 : readFullAt stream 0 4 = some riffChunkID := by
    rw [readFullAt_of_le stream 0 4 (by omega), hsdef]
    simp only [List.drop_zero]
    rw [List.take_left' (by rfl : (riffChunkID : List Nat).length = 4)]
  have hr4 : readFullAt stream 4 4 =
      some (toLE32 (32 + fmtBody.length + B.length + B.length % 2)) := by
    rw [readFullAt_of_le stream 4 4 (by omega), hsdef]
    rw [show (4 : Nat) = 0 + 4 from rfl]
    rw [← List.drop_drop, List.drop_zero,
      List.drop_left' (by rfl : (riffChunkID : List Nat).length = 4),
      List.take_left' (toLE32_length _)]
  have hr8 : readFullAt stream 8 4 = some waveID := by
    rw [readFullAt_of_le stream 8 4 (by omega), hsdef]
    rw [show (8 : Nat) = 4 + 4 from rfl, ← List.drop_drop]
    rw [List.drop_left' (by rfl : (riffChunkID : List Nat).length = 4),
      List.drop_left' (toLE32_length _),
      List.take_left' (by rfl : (waveID : List Nat).length = 4)]
  have hdrop12 : stream.drop 12 =
      (Chunk.mk formatChunkID fmtBody.length fmtBody).serialize ++
        ((factChunkID ++ (toLE32 4 ++ toLE32 f)) ++
          ((dataChunkID ++ (toLE32 B.length ++ ([] : List Nat))) ++ (B ++ pad))) := by
    rw [hsdef]
    rw [show (12 : Nat) = 4 + (4 + 4) from rfl, ← List.drop_drop, ← List.drop_drop]
    rw [List.drop_left' (by rfl : (riffChunkID : List Nat).length = 4)]
    rw [List.drop_left' (toLE32_length _)]
    rw [List.drop_left' (by rfl : (waveID : List Nat).length = 4)]
    simp only [Chunk.serialize, List.append_assoc]
  have hc1len : (Chunk.mk formatChunkID fmtBody.length fmtBody).serialize.length
      = 8 + fmtBody.length := by
    rw [chunk_serialize_len]
    rfl
  have hdropFact : stream.drop (12 + 8 + fmtBody.length) =
      (Chunk.mk factChunkID 4 (toLE32 f)).serialize ++
        ((dataChunkID ++ (toLE32 B.length ++ ([] : List Nat))) ++ (B ++ pad)) := by
    have h1 : stream.drop (12 + 8 + fmtBody.length)
        = (stream.drop 12).drop (8 + fmtBody.length) := by
      rw [List.drop_drop]
      congr 1
      omega
    rw [h1, hdrop12, List.drop_left' hc1len]
    simp only [Chunk.serialize, List.append_assoc]
  have hcflen : (Chunk.mk factChunkID 4 (toLE32 f)).serialize.length = 12 := by
    rw [chunk_serialize_len]
    rfl
  have hdropD : stream.drop (12 + 8 + fmtBody.length + 8 + 4) =
      dataChunkID ++ (toLE32 B.length ++ (([] : List Nat) ++ (B ++ pad))) := by
    have h1 : stream.drop (12 + 8 + fmtBody.length + 8 + 4)
        = (stream.drop (12 + 8 + fmtBody.length)).drop 12 := by
      rw [List.drop_drop]
    rw [h1, hdropFact, List.drop_left' hcflen]
    simp only [List.append_assoc]
  have hF : ((32 + fmtBody.length + B.length + B.length % 2) % 4294967296 + 8)
      % 4294967296 = 40 + fmtBody.length + B.length + B.length % 2 := by
    omega
  have h_ne : (Chunk.mk formatChunkID fmtBody.length fmtBody).id ≠ dataChunkID := by
    show formatChunkID ≠ dataChunkID
    decide
  have h_sz : (Chunk.mk formatChunkID fmtBody.length fmtBody).size < 4294967296 := by
    show fmtBody.length < 4294967296
    omega
  have h_even : (Chunk.mk formatChunkID fmtBody.length fmtBody).size % 2 = 0 := hfl
  have hstep1 := scanChunks_step_nondata stream
    (40 + fmtBody.length + B.length + B.length % 2) 12 0
    (40 + fmtBody.length + B.length + B.length % 2 + 1)
    (Chunk.mk formatChunkID fmtBody.length fmtBody)
    ((factChunkID ++ (toLE32 4 ++ toLE32 f)) ++
      ((dataChunkID ++ (toLE32 B.length ++ ([] : List Nat))) ++ (B ++ pad)))
    (by omega) (by omega) rfl h_ne h_sz rfl h_even hdrop12
    (by show 12 + 8 + fmtBody.length ≤ stream.length
        rw [hslen]
        omega)
  have hf_ne : (Chunk.mk factChunkID 4 (toLE32 f)).id ≠ dataChunkID := by
    show factChunkID ≠ dataChunkID
    decide
  have hstep2 := scanChunks_step_nondata stream
    (40 + fmtBody.length + B.length + B.length % 2) (12 + 8 + fmtBody.length) 0
    (40 + fmtBody.length + B.length + B.length % 2 + 1 - 1)
    (Chunk.mk factChunkID 4 (toLE32 f))
    ((dataChunkID ++ (toLE32 B.length ++ ([] : List Nat))) ++ (B ++ pad))
    (by omega) (by omega) rfl hf_ne (by show (4 : Nat) < 4294967296; omega)
    (toLE32_length f) (by show (4 : Nat) % 2 = 0; rfl) hdropFact
    (by show 12 + 8 + fmtBody.length + 8 + 4 ≤ stream.length
        rw [hslen]
        omega)
  have hstep3 := scanChunks_step_data stream
    (40 + fmtBody.length + B.length + B.length % 2) (12 + 8 + fmtBody.length + 8 + 4) 0
    (40 + fmtBody.length + B.length + B.length % 2 + 1 - 1 - 1) B.length
    (([] : List Nat) ++ (B ++ pad))
    (by omega) (by omega) (by omega) hdropD
    (by rw [hslen]; omega)
  have hdone := scanChunks_done stream
    (40 + fmtBody.length + B.length + B.length % 2)
    (12 + 8 + fmtBody.length + 8 + 4 + 8 + B.length + B.length % 2)
    (12 + 8 + fmtBody.length + 8 + 4 + 8)
    (40 + fmtBody.length + B.length + B.length % 2 + 1 - 1 - 1 - 1)
    (by omega) (by omega)
  simp only [readRIFFChunk, hr0, hr4, hr8]
  rw [if_neg (by simp : ¬ (riffChunkID : List Nat) ≠ riffChunkID)]
  rw [if_neg (by simp : ¬ (waveID : List Nat) ≠ waveID)]
  rw [leNat_toLE32, hF]
  rw [hstep1, hstep2, hstep3, hdone]
  rw [show 12 + 8 + fmtBody.length + 8 + 4 + 8 = 40 + fmtBody.length from by omega]




/-- Classifying the writer's chunk list (format chunk, optional fact
chunk, data-chunk header) yields exactly the expected header. -/
theorem parseHeader_writer_chunks
    (fmtBody : List Nat) (factVal : Option Nat) (dataLen fileSize : Nat)
    (fcd : FormatChunkData)
    (hfde : deserializeFormatChunk fmtBody = .ok fcd)
    (hfv : ∀ v ∈ factVal, v < 4294967296) :
    parseHeaderFromRIFFChunk fileSize
      (Chunk.mk formatChunkID fmtBody.length fmtBody ::
        ((match factVal with
          | some f => [Chunk.mk factChunkID 4 (toLE32 f)]
          | none => []) ++ [Chunk.mk dataChunkID dataLen []])) =
      .ok ⟨fileSize, fcd, factVal, none, dataLen, []⟩ := by
  cases factVal with
  | none =>
    simp [parseHeaderFromRIFFChunk, parseHeaderLoop, hfde, formatChunkID,
      factChunkID, cueChunkID, dataChunkID]
  | some f =>
    have hf := hfv f (by simp)
    simp [parseHeaderFromRIFFChunk, parseHeaderLoop, hfde, formatChunkID,
      factChunkID, cueChunkID, dataChunkID, deserializeFactChunk, toLE32,
      readU32At, leNat]
    omega



/-! ## Typed sample sequences

`Samples` packages one typed sample sequence, so that the round-trip
property can be stated uniformly over the six typed write/read pairs.
Float samples are their IEEE-754 bit patterns. -/

inductive Samples where
  | uint8 (xs : List Nat)
  | int16 (xs : List Int)
  | int24 (xs : List Int)
  | int32 (xs : List Int)
  | float32 (xs : List Nat)
  | float64 (xs : List Nat)
deriving DecidableEq, Repr

/-- The sample type of a sequence. -/
def Samples.sampleType : Samples → SampleType
  | .uint8 _ => .uint8
  | .int16 _ => .int16
  | .int24 _ => .int24
  | .int32 _ => .int32
  | .float32 _ => .float32
  | .float64 _ => .float64

/-- The element count of a sequence. -/
def Samples.count : Samples → Nat
  | .uint8 xs => xs.length
  | .int16 xs => xs.length
  | .int24 xs => xs.length
  | .int32 xs => xs.length
  | .float32 xs => xs.length
  | .float64 xs => xs.length

/-- The bytes a writer appends for the sequence (the per-type encodings
of the `WriteXXX` methods). -/
def Samples.encode : Samples → List Nat
  | .uint8 xs => xs
  | .int16 xs => encInt16List xs
  | .int24 xs => writePackedInt24 xs
  | .int32 xs => encInt32List xs
  | .float32 xs => encFloat32List xs
  | .float64 xs => encFloat64List xs

/-- Elements lie in the value range of their machine type. -/
def Samples.Valid : Samples → Prop
  | .uint8 xs => ∀ x ∈ xs, x < 256
  | .int16 xs => ∀ x ∈ xs, -32768 ≤ x ∧ x < 32768
  | .int24 xs => ∀ x ∈ xs, -8388608 ≤ x ∧ x < 8388608
  | .int32 xs => ∀ x ∈ xs, -2147483648 ≤ x ∧ x < 2147483648
  | .float32 xs => ∀ x ∈ xs, x < 4294967296
  | .float64 xs => ∀ x ∈ xs, x < 18446744073709551616

/-- The writer's typed write dispatched on the sequence's type. -/
def writeSamples (w : Writer) : Samples → Option Err × Writer
  | .uint8 xs => w.writeUint8 xs
  | .int16 xs => w.writeInt16 xs
  | .int24 xs => w.writeInt24 xs
  | .int32 xs => w.writeInt32 xs
  | .float32 xs => w.writeFloat32 xs
  | .float64 xs => w.writeFloat64 xs

/-- The reader's typed read dispatched on a sample type, with the decoded
elements repackaged as a `Samples`. -/
def readSamples (r : Reader) (st : SampleType) (count : Nat) :
    GoResult ((Samples × Nat × Option Err) × Reader) :=
  match st with
  | .uint8 =>
    match r.readUint8 count with
    | .ok ((xs, n, e), r') => .ok ((.uint8 xs, n, e), r')
    | .error e => .error e
    | .panic => .panic
  | .int16 =>
    match r.readInt16 count with
    | .ok ((xs, n, e), r') => .ok ((.int16 xs, n, e), r')
    | .error e => .error e
    | .panic => .panic
  | .int24 =>
    match r.readInt24 count with
    | .ok ((xs, n, e), r') => .ok ((.int24 xs, n, e), r')
    | .error e => .error e
    | .panic => .panic
  | .int32 =>
    match r.readInt32 count with
    | .ok ((xs, n, e), r') => .ok ((.int32 xs, n, e), r')
    | .error e => .error e
    | .panic => .panic
  | .float32 =>
    match r.readFloat32 count with
    | .ok ((xs, n, e), r') => .ok ((.float32 xs, n, e), r')
    | .error e => .error e
    | .panic => .panic
  | .float64 =>
    match r.readFloat64 count with
    | .ok ((xs, n, e), r') => .ok ((.float64 xs, n, e), r')
    | .error e => .error e
    | .panic => .panic

theorem Samples.encode_length (s : Samples) :
    s.encode.length = s.sampleType.size * s.count := by
  cases s with
  | uint8 xs => simp [Samples.encode, Samples.sampleType, Samples.count, SampleType.size]
  | int16 xs =>
    simp [Samples.encode, Samples.sampleType, Samples.count, SampleType.size,
      encInt16List_length]
  | int24 xs =>
    simp [Samples.encode, Samples.sampleType, Samples.count, SampleType.size,
      writePackedInt24_length]
  | int32 xs =>
    simp [Samples.encode, Samples.sampleType, Samples.count, SampleType.size,
      encInt32List_length]
  | float32 xs =>
    simp [Samples.encode, Samples.sampleType, Samples.count, SampleType.size,
      encFloat32List_length]
  | float64 xs =>
    simp [Samples.encode, Samples.sampleType, Samples.count, SampleType.size,
      encFloat64List_length]



/-- A first append on a fresh writer writes the preamble at offset 0 and
the encoded bytes after it, leaving the head at the end. -/
theorem writeData_fresh (w : Writer) (bytes : List Nat) (h0 : w.dataBytes = 0)
    (hbase : w.base = ⟨[], 0⟩) :
    w.writeData bytes = { w with base := ⟨w.getRootChunk.serialize ++ bytes,
      (w.getRootChunk.serialize ++ bytes).length⟩ } := by
  unfold Writer.writeData Writer.writePreamble
  rw [if_pos h0, hbase]
  simp [BWriter.seekToStart, BWriter.seekToEnd, BWriter.write,
    List.take_length, List.drop_eq_nil_of_le, List.length_append]

/-- A typed write of matching type on a fresh writer succeeds, producing
the initial preamble followed by the encoded samples, and counts the
appended bytes. -/
theorem writeSamples_run (s : Samples) (rate cc : Nat) :
    writeSamples (newWriter s.sampleType rate cc) s =
      (none,
        { base := ⟨(newWriter s.sampleType rate cc).getRootChunk.serialize ++ s.encode,
            ((newWriter s.sampleType rate cc).getRootChunk.serialize ++ s.encode).length⟩
          sampleType := s.sampleType
          formatChunkData := newFormatChunkData cc rate s.sampleType
          factChunkData :=
            if (newFormatChunkData cc rate s.sampleType).formatCode ≠ formatCodePCM
            then some 0 else none
          dataBytes := (0 + s.sampleType.size * s.count) % 4294967296 }) := by
  cases s with
  | uint8 xs =>
    simp only [writeSamples, Writer.writeUint8, Samples.sampleType,
      Samples.encode, Samples.count]
    rw [if_neg (by simp [newWriter] : ¬ (newWriter SampleType.uint8 rate cc).sampleType ≠ SampleType.uint8)]
    rw [writeData_fresh (newWriter SampleType.uint8 rate cc) xs rfl rfl]
    simp [newWriter, SampleType.size]
  | int16 xs =>
    simp only [writeSamples, Writer.writeInt16, Samples.sampleType,
      Samples.encode, Samples.count]
    rw [if_neg (by simp [newWriter] : ¬ (newWriter SampleType.int16 rate cc).sampleType ≠ SampleType.int16)]
    rw [writeData_fresh (newWriter SampleType.int16 rate cc) (encInt16List xs) rfl rfl]
    simp [newWriter, SampleType.size, encInt16List_length]
  | int24 xs =>
    simp only [writeSamples, Writer.writeInt24, Samples.sampleType,
      Samples.encode, Samples.count]
    rw [if_neg (by simp [newWriter] : ¬ (newWriter SampleType.int24 rate cc).sampleType ≠ SampleType.int24)]
    rw [writeData_fresh (newWriter SampleType.int24 rate cc) (writePackedInt24 xs) rfl rfl]
    simp [newWriter, SampleType.size, writePackedInt24_length]
  | int32 xs =>
    simp only [writeSamples, Writer.writeInt32, Samples.sampleType,
      Samples.encode, Samples.count]
    rw [if_neg (by simp [newWriter] : ¬ (newWriter SampleType.int32 rate cc).sampleType ≠ SampleType.int32)]
    rw [writeData_fresh (newWriter SampleType.int32 rate cc) (encInt32List xs) rfl rfl]
    simp [newWriter, SampleType.size, encInt32List_length]
  | float32 xs =>
    simp only [writeSamples, Writer.writeFloat32, Samples.sampleType,
      Samples.encode, Samples.count]
    rw [if_neg (by simp [newWriter] : ¬ (newWriter SampleType.float32 rate cc).sampleType ≠ SampleType.float32)]
    rw [writeData_fresh (newWriter SampleType.float32 rate cc) (encFloat32List xs) rfl rfl]
    simp [newWriter, SampleType.size, encFloat32List_length]
  | float64 xs =>
    simp only [writeSamples, Writer.writeFloat64, Samples.sampleType,
      Samples.encode, Samples.count]
    rw [if_neg (by simp [newWriter] : ¬ (newWriter SampleType.float64 rate cc).sampleType ≠ SampleType.float64)]
    rw [writeData_fresh (newWriter SampleType.float64 rate cc) (encFloat64List xs) rfl rfl]
    simp [newWriter, SampleType.size, encFloat64List_length]



/-- Flushing a writer without a fact chunk whose sink holds preamble and
aligned data: the preamble is rewritten in place (same length), with a
zero pad byte appended first when the byte count is odd. -/
theorem flush_run_nofact (bse : BWriter) (wst : SampleType) (wfcd : FormatChunkData)
    (P B : List Nat)
    (hbase : bse = ⟨P ++ B, (P ++ B).length⟩)
    (hba : wfcd.blockAlign ≠ 0)
    (hmod : B.length % wfcd.blockAlign = 0)
    (hlen : P.length = 28 + fmtBodyLen wfcd) :
    (Writer.mk bse wst wfcd none B.length).flush = .ok (none,
      { base := ⟨(Writer.mk bse wst wfcd none B.length).getRootChunk.serialize ++
          (B ++ (if B.length % 2 = 1 then [0] else [])),
          (Writer.mk bse wst wfcd none B.length).getRootChunk.serialize.length⟩
        sampleType := wst
        formatChunkData := wfcd
        factChunkData := none
        dataBytes := B.length }) := by
  subst hbase
  have hP2len : (Writer.mk ⟨P ++ B, (P ++ B).length⟩ wst wfcd none
      B.length).getRootChunk.serialize.length = P.length := by
    rw [getRootChunk_serialize_length]
    simp [hlen]
  unfold Writer.flush
  rw [if_neg hba, if_neg (by simp only; omega)]
  simp only
  by_cases hp : B.length % 2 = 1
  · rw [if_pos hp, if_pos hp]
    have hwrote : (⟨P ++ B, (P ++ B).length⟩ : BWriter).write [0]
        = ⟨(P ++ B) ++ [0], (P ++ B).length + 1⟩ := by
      simp only [BWriter.write]
      rw [List.take_length, List.drop_eq_nil_of_le (by simp), List.append_nil]
      rfl
    rw [hwrote]
    have hg : (Writer.mk ⟨(P ++ B) ++ [0], (P ++ B).length + 1⟩ wst wfcd none
        B.length).getRootChunk =
        (Writer.mk ⟨P ++ B, (P ++ B).length⟩ wst wfcd none B.length).getRootChunk := rfl
    have hpre : (Writer.mk ⟨(P ++ B) ++ [0], (P ++ B).length + 1⟩ wst wfcd none
        B.length).writePreamble =
        Writer.mk ⟨(Writer.mk ⟨P ++ B, (P ++ B).length⟩ wst wfcd none
            B.length).getRootChunk.serialize ++ (B ++ [0]),
          (Writer.mk ⟨P ++ B, (P ++ B).length⟩ wst wfcd none
            B.length).getRootChunk.serialize.length⟩ wst wfcd none B.length := by
      unfold Writer.writePreamble
      simp only [BWriter.seekToStart, BWriter.write, List.take_zero, List.nil_append,
        Nat.zero_add]
      rw [hg]
      rw [show ((P ++ B) ++ [0] : List Nat).drop
          ((Writer.mk ⟨P ++ B, (P ++ B).length⟩ wst wfcd none
            B.length).getRootChunk.serialize.length) = B ++ [0] from by
        rw [hP2len, List.append_assoc, List.drop_left' rfl]]
    rw [hpre]
  · rw [if_neg hp, if_neg hp]
    have hg : True := trivial
    have hpre : (Writer.mk ⟨P ++ B, (P ++ B).length⟩ wst wfcd none
        B.length).writePreamble =
        Writer.mk ⟨(Writer.mk ⟨P ++ B, (P ++ B).length⟩ wst wfcd none
            B.length).getRootChunk.serialize ++ (B ++ []),
          (Writer.mk ⟨P ++ B, (P ++ B).length⟩ wst wfcd none
            B.length).getRootChunk.serialize.length⟩ wst wfcd none B.length := by
      unfold Writer.writePreamble
      simp only [BWriter.seekToStart, BWriter.write, List.take_zero, List.nil_append,
        Nat.zero_add]
      rw [show ((P ++ B) : List Nat).drop
          ((Writer.mk ⟨P ++ B, (P ++ B).length⟩ wst wfcd none
            B.length).getRootChunk.serialize.length) = B ++ ([] : List Nat) from by
        rw [hP2len, List.drop_left' rfl, List.append_nil]]
    rw [hpre]

/-- Flushing a writer with a fact chunk: additionally sets the fact
chunk's frame count to `bytes / blockAlign` before rewriting the
preamble. -/
theorem flush_run_fact (bse : BWriter) (wst : SampleType) (wfcd : FormatChunkData)
    (v : Nat) (P B : List Nat)
    (hbase : bse = ⟨P ++ B, (P ++ B).length⟩)
    (hba : wfcd.blockAlign ≠ 0)
    (hmod : B.length % wfcd.blockAlign = 0)
    (hlen : P.length = 40 + fmtBodyLen wfcd) :
    (Writer.mk bse wst wfcd (some v) B.length).flush = .ok (none,
      { base := ⟨(Writer.mk bse wst wfcd (some (B.length / wfcd.blockAlign))
            B.length).getRootChunk.serialize ++
          (B ++ (if B.length % 2 = 1 then [0] else [])),
          (Writer.mk bse wst wfcd (some (B.length / wfcd.blockAlign))
            B.length).getRootChunk.serialize.length⟩
        sampleType := wst
        formatChunkData := wfcd
        factChunkData := some (B.length / wfcd.blockAlign)
        dataBytes := B.length }) := by
  subst hbase
  have hP2len : (Writer.mk ⟨P ++ B, (P ++ B).length⟩ wst wfcd
      (some (B.length / wfcd.blockAlign))
      B.length).getRootChunk.serialize.length = P.length := by
    rw [getRootChunk_serialize_length]
    simp [hlen]
    omega
  unfold Writer.flush
  rw [if_neg hba, if_neg (by simp only; omega)]
  simp only
  by_cases hp : B.length % 2 = 1
  · rw [if_pos hp, if_pos hp]
    have hwrote : (⟨P ++ B, (P ++ B).length⟩ : BWriter).write [0]
        = ⟨(P ++ B) ++ [0], (P ++ B).length + 1⟩ := by
      simp only [BWriter.write]
      rw [List.take_length, List.drop_eq_nil_of_le (by simp), List.append_nil]
      rfl
    rw [hwrote]
    have hg : (Writer.mk ⟨(P ++ B) ++ [0], (P ++ B).length + 1⟩ wst wfcd
        (some (B.length / wfcd.blockAlign)) B.length).getRootChunk =
        (Writer.mk ⟨P ++ B, (P ++ B).length⟩ wst wfcd
          (some (B.length / wfcd.blockAlign)) B.length).getRootChunk := rfl
    have hpre : (Writer.mk ⟨(P ++ B) ++ [0], (P ++ B).length + 1⟩ wst wfcd
        (some (B.length / wfcd.blockAlign)) B.length).writePreamble =
        Writer.mk ⟨(Writer.mk ⟨P ++ B, (P ++ B).length⟩ wst wfcd
            (some (B.length / wfcd.blockAlign))
            B.length).getRootChunk.serialize ++ (B ++ [0]),
          (Writer.mk ⟨P ++ B, (P ++ B).length⟩ wst wfcd
            (some (B.length / wfcd.blockAlign))
            B.length).getRootChunk.serialize.length⟩ wst wfcd
          (some (B.length / wfcd.blockAlign)) B.length := by
      unfold Writer.writePreamble
      simp only [BWriter.seekToStart, BWriter.write, List.take_zero, List.nil_append,
        Nat.zero_add]
      rw [hg]
      rw [show ((P ++ B) ++ [0] : List Nat).drop
          ((Writer.mk ⟨P ++ B, (P ++ B).length⟩ wst wfcd
            (some (B.length / wfcd.blockAlign))
            B.length).getRootChunk.serialize.length) = B ++ [0] from by
        rw [hP2len, List.append_assoc, List.drop_left' rfl]]
    rw [hpre]
  · rw [if_neg hp, if_neg hp]
    have hpre : (Writer.mk ⟨P ++ B, (P ++ B).length⟩ wst wfcd
        (some (B.length / wfcd.blockAlign)) B.length).writePreamble =
        Writer.mk ⟨(Writer.mk ⟨P ++ B, (P ++ B).length⟩ wst wfcd
            (some (B.length / wfcd.blockAlign))
            B.length).getRootChunk.serialize ++ (B ++ []),
          (Writer.mk ⟨P ++ B, (P ++ B).length⟩ wst wfcd
            (some (B.length / wfcd.blockAlign))
            B.length).getRootChunk.serialize.length⟩ wst wfcd
          (some (B.length / wfcd.blockAlign)) B.length := by
      unfold Writer.writePreamble
      simp only [BWriter.seekToStart, BWriter.write, List.take_zero, List.nil_append,
        Nat.zero_add]
      rw [show ((P ++ B) : List Nat).drop
          ((Writer.mk ⟨P ++ B, (P ++ B).length⟩ wst wfcd
            (some (B.length / wfcd.blockAlign))
            B.length).getRootChunk.serialize.length) = B ++ ([] : List Nat) from by
        rw [hP2len, List.drop_left' rfl, List.append_nil]]
    rw [hpre]




/-- The serialized byte length of a writer-derived format chunk body: 40 for
the extensible layout, 18 for plain IEEE-float, 16 for plain PCM. -/
def newFmtLen (cc : Nat) (st : SampleType) : Nat :=
  if 2 < cc ∨ st = .int24 ∨ st = .int32 then 40
  else if st = .float32 ∨ st = .float64 then 18
  else 16

/-- A writer-derived format chunk serializes successfully, to a body of
length newFmtLen, and deserializing that body recovers the chunk. -/
theorem newFormat_roundtrip (cc rate : Nat) (st : SampleType)
    (hcc1 : 1 ≤ cc) (hcc : st.size * cc < 65536) (hrate : rate < 4294967296) :
    ∃ body : List Nat,
      (newFormatChunkData cc rate st).serialize = .ok body ∧
      body.length = newFmtLen cc st ∧
      deserializeFormatChunk body = .ok (newFormatChunkData cc rate st) := by
  by_cases hcb : 2 < cc <;> cases st <;> simp only [SampleType.size] at hcc
  · -- uint8, 2 < cc
    have hshape : newFormatChunkData cc rate .uint8 =
        { formatCode := formatCodeExtensible, channelCount := cc, frameRate := rate,
          byteRate := rate * (cc % 65536) % 4294967296,
          blockAlign := cc % 65536, bitsPerSample := 8,
          validBitsPerSample := some 8, channelMask := some 0,
          subFormat := some formatCodePCM } := by
      simp [newFormatChunkData, hcb, SampleType.effectiveFormatCode, SampleType.size]
    rw [hshape]
    refine ⟨_, serialize_ext _ rfl 8 0 formatCodePCM rfl rfl rfl, ?_, ?_⟩
    · simp [newFmtLen, hcb, toLE16, toLE32, subFormatGUIDTail]
    · exact deser_ext40 _ (by norm_num [formatCodeExtensible]) (by show cc < 65536; omega)
        (by show rate < 4294967296; omega)
        (by show rate * (cc % 65536) % 4294967296 < 4294967296; omega)
        (by show cc % 65536 < 65536; omega)
        (by norm_num) 8 0 formatCodePCM (by norm_num) (by norm_num)
        (by norm_num [formatCodePCM]) rfl rfl rfl
  · -- int16, 2 < cc
    have hshape : newFormatChunkData cc rate .int16 =
        { formatCode := formatCodeExtensible, channelCount := cc, frameRate := rate,
          byteRate := rate * (2 * cc % 65536) % 4294967296,
          blockAlign := 2 * cc % 65536, bitsPerSample := 16,
          validBitsPerSample := some 16, channelMask := some 0,
          subFormat := some formatCodePCM } := by
      simp [newFormatChunkData, hcb, SampleType.effectiveFormatCode, SampleType.size]
    rw [hshape]
    refine ⟨_, serialize_ext _ rfl 16 0 formatCodePCM rfl rfl rfl, ?_, ?_⟩
    · simp [newFmtLen, hcb, toLE16, toLE32, subFormatGUIDTail]
    · exact deser_ext40 _ (by norm_num [formatCodeExtensible]) (by show cc < 65536; omega)
        (by show rate < 4294967296; omega)
        (by show rate * (2 * cc % 65536) % 4294967296 < 4294967296; omega)
        (by show 2 * cc % 65536 < 65536; omega)
        (by norm_num) 16 0 formatCodePCM (by norm_num) (by norm_num)
        (by norm_num [formatCodePCM]) rfl rfl rfl
  · -- int24, 2 < cc
    have hshape : newFormatChunkData cc rate .int24 =
        { formatCode := formatCodeExtensible, channelCount := cc, frameRate := rate,
          byteRate := rate * (3 * cc % 65536) % 4294967296,
          blockAlign := 3 * cc % 65536, bitsPerSample := 24,
          validBitsPerSample := some 24, channelMask := some 0,
          subFormat := some formatCodePCM } := by
      simp [newFormatChunkData, hcb, SampleType.effectiveFormatCode, SampleType.size]
    rw [hshape]
    refine ⟨_, serialize_ext _ rfl 24 0 formatCodePCM rfl rfl rfl, ?_, ?_⟩
    · simp [newFmtLen, hcb, toLE16, toLE32, subFormatGUIDTail]
    · exact deser_ext40 _ (by norm_num [formatCodeExtensible]) (by show cc < 65536; omega)
        (by show rate < 4294967296; omega)
        (by show rate * (3 * cc % 65536) % 4294967296 < 4294967296; omega)
        (by show 3 * cc % 65536 < 65536; omega)
        (by norm_num) 24 0 formatCodePCM (by norm_num) (by norm_num)
        (by norm_num [formatCodePCM]) rfl rfl rfl
  · -- int32, 2 < cc
    have hshape : newFormatChunkData cc rate .int32 =
        { formatCode := formatCodeExtensible, channelCount := cc, frameRate := rate,
          byteRate := rate * (4 * cc % 65536) % 4294967296,
          blockAlign := 4 * cc % 65536, bitsPerSample := 32,
          validBitsPerSample := some 32, channelMask := some 0,
          subFormat := some formatCodePCM } := by
      simp [newFormatChunkData, hcb, SampleType.effectiveFormatCode, SampleType.size]
    rw [hshape]
    refine ⟨_, serialize_ext _ rfl 32 0 formatCodePCM rfl rfl rfl, ?_, ?_⟩
    · simp [newFmtLen, hcb, toLE16, toLE32, subFormatGUIDTail]
    · exact deser_ext40 _ (by norm_num [formatCodeExtensible]) (by show cc < 65536; omega)
        (by show rate < 4294967296; omega)
        (by show rate * (4 * cc % 65536) % 4294967296 < 4294967296; omega)
        (by show 4 * cc % 65536 < 65536; omega)
        (by norm_num) 32 0 formatCodePCM (by norm_num) (by norm_num)
        (by norm_num [formatCodePCM]) rfl rfl rfl
  · -- float32, 2 < cc
    have hshape : newFormatChunkData cc rate .float32 =
        { formatCode := formatCodeExtensible, channelCount := cc, frameRate := rate,
          byteRate := rate * (4 * cc % 65536) % 4294967296,
          blockAlign := 4 * cc % 65536, bitsPerSample := 32,
          validBitsPerSample := some 32, channelMask := some 0,
          subFormat := some formatCodeIEEEFloat } := by
      simp [newFormatChunkData, hcb, SampleType.effectiveFormatCode, SampleType.size]
    rw [hshape]
    refine ⟨_, serialize_ext _ rfl 32 0 formatCodeIEEEFloat rfl rfl rfl, ?_, ?_⟩
    · simp [newFmtLen, hcb, toLE16, toLE32, subFormatGUIDTail]
    · exact deser_ext40 _ (by norm_num [formatCodeExtensible]) (by show cc < 65536; omega)
        (by show rate < 4294967296; omega)
        (by show rate * (4 * cc % 65536) % 4294967296 < 4294967296; omega)
        (by show 4 * cc % 65536 < 65536; omega)
        (by norm_num) 32 0 formatCodeIEEEFloat (by norm_num) (by norm_num)
        (by norm_num [formatCodeIEEEFloat]) rfl rfl rfl
  · -- float64, 2 < cc
    have hshape : newFormatChunkData cc rate .float64 =
        { formatCode := formatCodeExtensible, channelCount := cc, frameRate := rate,
          byteRate := rate * (8 * cc % 65536) % 4294967296,
          blockAlign := 8 * cc % 65536, bitsPerSample := 64,
          validBitsPerSample := some 64, channelMask := some 0,
          subFormat := some formatCodeIEEEFloat } := by
      simp [newFormatChunkData, hcb, SampleType.effectiveFormatCode, SampleType.size]
    rw [hshape]
    refine ⟨_, serialize_ext _ rfl 64 0 formatCodeIEEEFloat rfl rfl rfl, ?_, ?_⟩
    · simp [newFmtLen, hcb, toLE16, toLE32, subFormatGUIDTail]
    · exact deser_ext40 _ (by norm_num [formatCodeExtensible]) (by show cc < 65536; omega)
        (by show rate < 4294967296; omega)
        (by show rate * (8 * cc % 65536) % 4294967296 < 4294967296; omega)
        (by show 8 * cc % 65536 < 65536; omega)
        (by norm_num) 64 0 formatCodeIEEEFloat (by norm_num) (by norm_num)
        (by norm_num [formatCodeIEEEFloat]) rfl rfl rfl
  · -- uint8, cc le 2
    have hshape : newFormatChunkData cc rate .uint8 =
        { formatCode := formatCodePCM, channelCount := cc, frameRate := rate,
          byteRate := rate * (cc % 65536) % 4294967296,
          blockAlign := cc % 65536, bitsPerSample := 8,
          validBitsPerSample := none, channelMask := none,
          subFormat := none } := by
      simp [newFormatChunkData, hcb, SampleType.effectiveFormatCode, SampleType.size]
    rw [hshape]
    refine ⟨_, serialize_plainPCM _ rfl, ?_, ?_⟩
    · simp [newFmtLen, hcb, toLE16, toLE32]
    · exact deser_plain16 _ (by norm_num [formatCodePCM]) (by show cc < 65536; omega)
        (by show rate < 4294967296; omega)
        (by show rate * (cc % 65536) % 4294967296 < 4294967296; omega)
        (by show cc % 65536 < 65536; omega)
        (by norm_num) rfl rfl rfl
  · -- int16, cc le 2
    have hshape : newFormatChunkData cc rate .int16 =
        { formatCode := formatCodePCM, channelCount := cc, frameRate := rate,
          byteRate := rate * (2 * cc % 65536) % 4294967296,
          blockAlign := 2 * cc % 65536, bitsPerSample := 16,
          validBitsPerSample := none, channelMask := none,
          subFormat := none } := by
      simp [newFormatChunkData, hcb, SampleType.effectiveFormatCode, SampleType.size]
    rw [hshape]
    refine ⟨_, serialize_plainPCM _ rfl, ?_, ?_⟩
    · simp [newFmtLen, hcb, toLE16, toLE32]
    · exact deser_plain16 _ (by norm_num [formatCodePCM]) (by show cc < 65536; omega)
        (by show rate < 4294967296; omega)
        (by show rate * (2 * cc % 65536) % 4294967296 < 4294967296; omega)
        (by show 2 * cc % 65536 < 65536; omega)
        (by norm_num) rfl rfl rfl
  · -- int24, cc le 2
    have hshape : newFormatChunkData cc rate .int24 =
        { formatCode := formatCodeExtensible, channelCount := cc, frameRate := rate,
          byteRate := rate * (3 * cc % 65536) % 4294967296,
          blockAlign := 3 * cc % 65536, bitsPerSample := 24,
          validBitsPerSample := some 24, channelMask := some 0,
          subFormat := some formatCodePCM } := by
      simp [newFormatChunkData, hcb, SampleType.effectiveFormatCode, SampleType.size]
    rw [hshape]
    refine ⟨_, serialize_ext _ rfl 24 0 formatCodePCM rfl rfl rfl, ?_, ?_⟩
    · simp [newFmtLen, hcb, toLE16, toLE32, subFormatGUIDTail]
    · exact deser_ext40 _ (by norm_num [formatCodeExtensible]) (by show cc < 65536; omega)
        (by show rate < 4294967296; omega)
        (by show rate * (3 * cc % 65536) % 4294967296 < 4294967296; omega)
        (by show 3 * cc % 65536 < 65536; omega)
        (by norm_num) 24 0 formatCodePCM (by norm_num) (by norm_num)
        (by norm_num [formatCodePCM]) rfl rfl rfl
  · -- int32, cc le 2
    have hshape : newFormatChunkData cc rate .int32 =
        { formatCode := formatCodeExtensible, channelCount := cc, frameRate := rate,
          byteRate := rate * (4 * cc % 65536) % 4294967296,
          blockAlign := 4 * cc % 65536, bitsPerSample := 32,
          validBitsPerSample := some 32, channelMask := some 0,
          subFormat := some formatCodePCM } := by
      simp [newFormatChunkData, hcb, SampleType.effectiveFormatCode, SampleType.size]
    rw [hshape]
    refine ⟨_, serialize_ext _ rfl 32 0 formatCodePCM rfl rfl rfl, ?_, ?_⟩
    · simp [newFmtLen, hcb, toLE16, toLE32, subFormatGUIDTail]
    · exact deser_ext40 _ (by norm_num [formatCodeExtensible]) (by show cc < 65536; omega)
        (by show rate < 4294967296; omega)
        (by show rate * (4 * cc % 65536) % 4294967296 < 4294967296; omega)
        (by show 4 * cc % 65536 < 65536; omega)
        (by norm_num) 32 0 formatCodePCM (by norm_num) (by norm_num)
        (by norm_num [formatCodePCM]) rfl rfl rfl
  · -- float32, cc le 2
    have hshape : newFormatChunkData cc rate .float32 =
        { formatCode := formatCodeIEEEFloat, channelCount := cc, frameRate := rate,
          byteRate := rate * (4 * cc % 65536) % 4294967296,
          blockAlign := 4 * cc % 65536, bitsPerSample := 32,
          validBitsPerSample := none, channelMask := none,
          subFormat := none } := by
      simp [newFormatChunkData, hcb, SampleType.effectiveFormatCode, SampleType.size]
    rw [hshape]
    refine ⟨_, serialize_ieee _ rfl, ?_, ?_⟩
    · simp [newFmtLen, hcb, toLE16, toLE32]
    · exact deser_ieee18 _ (by norm_num [formatCodeIEEEFloat]) (by show cc < 65536; omega)
        (by show rate < 4294967296; omega)
        (by show rate * (4 * cc % 65536) % 4294967296 < 4294967296; omega)
        (by show 4 * cc % 65536 < 65536; omega)
        (by norm_num) rfl rfl rfl
  · -- float64, cc le 2
    have hshape : newFormatChunkData cc rate .float64 =
        { formatCode := formatCodeIEEEFloat, channelCount := cc, frameRate := rate,
          byteRate := rate * (8 * cc % 65536) % 4294967296,
          blockAlign := 8 * cc % 65536, bitsPerSample := 64,
          validBitsPerSample := none, channelMask := none,
          subFormat := none } := by
      simp [newFormatChunkData, hcb, SampleType.effectiveFormatCode, SampleType.size]
    rw [hshape]
    refine ⟨_, serialize_ieee _ rfl, ?_, ?_⟩
    · simp [newFmtLen, hcb, toLE16, toLE32]
    · exact deser_ieee18 _ (by norm_num [formatCodeIEEEFloat]) (by show cc < 65536; omega)
        (by show rate < 4294967296; omega)
        (by show rate * (8 * cc % 65536) % 4294967296 < 4294967296; omega)
        (by show 8 * cc % 65536 < 65536; omega)
        (by norm_num) rfl rfl rfl

/-- Every sample type occupies at least one byte. -/
theorem SampleType.size_pos (st : SampleType) : 1 ≤ st.size := by
  cases st <;> simp [SampleType.size]

/-- The block align computed for a writer-derived format chunk is the
frame size in bytes (no `uint16` wrap under the stated bound). -/
theorem newFormat_blockAlign (cc rate : Nat) (st : SampleType)
    (hcc : st.size * cc < 65536) :
    (newFormatChunkData cc rate st).blockAlign = st.size * cc := by
  by_cases hcb : 2 < cc <;> cases st <;>
    simp only [SampleType.size] at hcc <;>
    simp [newFormatChunkData, hcb, SampleType.size, Nat.mod_eq_of_lt] <;> omega

/-- Resolving the sample type of a header holding a writer-derived
format chunk recovers the type the writer was built with. -/
theorem sampleType_newFormat (fs : Nat) (fa : Option Nat)
    (cu : Option CueChunkData) (db : Nat) (add : List Chunk)
    (cc rate : Nat) (st : SampleType) :
    (Header.mk fs (newFormatChunkData cc rate st) fa cu db add).sampleType = .ok st := by
  by_cases hcb : 2 < cc <;> cases st <;>
    simp [Header.sampleType, newFormatChunkData, hcb,
      FormatChunkData.effectiveFormatCode, SampleType.effectiveFormatCode,
      SampleType.size, formatCodeIsValid, formatCodePCM, formatCodeIEEEFloat,
      formatCodeExtensible]

/-- The writer's root chunk, written out: a RIFF chunk over the
serialized format chunk, the fact chunk when present, and a bodyless data
chunk header carrying the running byte count. -/
theorem getRootChunk_eq (bse : BWriter) (wst : SampleType)
    (wfcd : FormatChunkData) (fact : Option Nat) (db : Nat) (body : List Nat)
    (hser : wfcd.serialize = .ok body) :
    (Writer.mk bse wst wfcd fact db).getRootChunk =
      newRIFFChunk (Chunk.mk formatChunkID body.length body ::
        ((match fact with
          | some f => [Chunk.mk factChunkID 4 (toLE32 f)]
          | none => []) ++ [Chunk.mk dataChunkID db []])) := by
  unfold Writer.getRootChunk
  simp only [hser]
  cases fact <;> simp [serializeFactChunk, toLE32]

/-- `readChunk` when the full request is available: returns exactly the
requested bytes from the current position with no error. -/
theorem readChunk_full (r : Reader) (n : Nat)
    (hdrem : r.dataRemaining = n)
    (hdata : n ≤ r.data.length - r.pos) :
    ∃ r' : Reader, r.readChunk n = ((r.data.drop r.pos).take n, none, r') := by
  cases n with
  | zero => exact ⟨r, rfl⟩
  | succ m =>
    refine ⟨{ r with pos := r.pos + (m + 1), dataRemaining := r.dataRemaining - (m + 1) }, ?_⟩
    unfold Reader.readChunk
    rw [if_neg (by omega)]
    rw [show min (r.data.length - r.pos) r.dataRemaining = m + 1 from by omega]
    rw [if_neg (by omega), if_neg (by omega)]



/-- The serialized body of a writer-derived format chunk has even length. -/
theorem newFmtLen_even (cc : Nat) (st : SampleType) : newFmtLen cc st % 2 = 0 := by
  unfold newFmtLen
  split
  · rfl
  · split <;> rfl

/-- The serialized body of a writer-derived format chunk is at most 64
bytes long. -/
theorem newFmtLen_le (cc : Nat) (st : SampleType) : newFmtLen cc st ≤ 64 := by
  unfold newFmtLen
  split
  · omega
  · split <;> omega

/-- Write–flush–parse pipeline, PCM (no fact chunk) case: writing a
frame-aligned sequence on a fresh writer and flushing succeeds, and the
reader's header access over the produced bytes recovers the writer's
format data with the data chunk positioned and sized so the encoded
bytes can be read back in full. -/
theorem stream_after_flush_nofact (s : Samples) (rate cc : Nat)
    (hcc1 : 1 ≤ cc)
    (hcc : s.sampleType.size * cc < 65536)
    (hrate : rate < 4294967296)
    (hmod : s.count % cc = 0)
    (hsmall : s.encode.length + 200 < 4294967296)
    (hfc : (newFormatChunkData cc rate s.sampleType).formatCode = formatCodePCM) :
    ∃ (w1 w2 : Writer) (hdr : Header) (r1 : Reader),
      writeSamples (newWriter s.sampleType rate cc) s = (none, w1) ∧
      w1.flush = .ok (none, w2) ∧
      (newReader w2.base.buf).getHeader = .ok (hdr, r1) ∧
      hdr.formatData = newFormatChunkData cc rate s.sampleType ∧
      hdr.factData = none ∧
      hdr.cueData = none ∧
      hdr.dataBytes = s.encode.length ∧
      hdr.additionalChunks = [] ∧
      r1.data = w2.base.buf ∧
      r1.dataRemaining = s.encode.length ∧
      s.encode.length ≤ r1.data.length - r1.pos ∧
      (r1.data.drop r1.pos).take s.encode.length = s.encode := by
  have hElen : s.encode.length = s.sampleType.size * s.count := Samples.encode_length s
  have hszpos := SampleType.size_pos s.sampleType
  have hba' : (newFormatChunkData cc rate s.sampleType).blockAlign =
      s.sampleType.size * cc := newFormat_blockAlign cc rate s.sampleType hcc
  have hbane : (newFormatChunkData cc rate s.sampleType).blockAlign ≠ 0 := by
    rw [hba']
    have := Nat.mul_pos hszpos hcc1
    omega
  have hmodE : s.encode.length % (newFormatChunkData cc rate s.sampleType).blockAlign = 0 := by
    rw [hba', hElen]
    obtain ⟨k, hk⟩ := Nat.dvd_of_mod_eq_zero hmod
    rw [hk, show s.sampleType.size * (cc * k) = s.sampleType.size * cc * k from by ring]
    exact Nat.mul_mod_right _ _
  obtain ⟨body, hser, hblen, hdeser⟩ :=
    newFormat_roundtrip cc rate s.sampleType hcc1 hcc hrate
  have hflev : body.length % 2 = 0 := by rw [hblen]; exact newFmtLen_even cc s.sampleType
  have hfb64 : body.length ≤ 64 := by rw [hblen]; exact newFmtLen_le cc s.sampleType
  have hfbl : fmtBodyLen (newFormatChunkData cc rate s.sampleType) = body.length := by
    unfold fmtBodyLen
    rw [hser]
  have hdb : s.sampleType.size * s.count % 4294967296 = s.encode.length := by
    rw [← hElen, Nat.mod_eq_of_lt (by omega)]
  have hw1 : writeSamples (newWriter s.sampleType rate cc) s =
      (none, Writer.mk
        ⟨(newWriter s.sampleType rate cc).getRootChunk.serialize ++ s.encode,
          ((newWriter s.sampleType rate cc).getRootChunk.serialize ++ s.encode).length⟩
        s.sampleType (newFormatChunkData cc rate s.sampleType) none s.encode.length) := by
    rw [writeSamples_run]
    simp [hfc, hdb]
  have hlenP0 : (newWriter s.sampleType rate cc).getRootChunk.serialize.length =
      28 + fmtBodyLen (newFormatChunkData cc rate s.sampleType) := by
    rw [getRootChunk_serialize_length]
    simp [newWriter, hfc]
  have hflush := flush_run_nofact
    ⟨(newWriter s.sampleType rate cc).getRootChunk.serialize ++ s.encode,
      ((newWriter s.sampleType rate cc).getRootChunk.serialize ++ s.encode).length⟩
    s.sampleType (newFormatChunkData cc rate s.sampleType)
    ((newWriter s.sampleType rate cc).getRootChunk.serialize) s.encode
    rfl hbane hmodE hlenP0
  have hP2 : (Writer.mk
      ⟨(newWriter s.sampleType rate cc).getRootChunk.serialize ++ s.encode,
        ((newWriter s.sampleType rate cc).getRootChunk.serialize ++ s.encode).length⟩
      s.sampleType (newFormatChunkData cc rate s.sampleType) none
      s.encode.length).getRootChunk =
      newRIFFChunk [Chunk.mk formatChunkID body.length body,
        Chunk.mk dataChunkID s.encode.length []] :=
    getRootChunk_eq _ _ _ _ _ body hser
  have hP2lenG : ∀ b : BWriter, (Writer.mk b
      s.sampleType (newFormatChunkData cc rate s.sampleType) none
      s.encode.length).getRootChunk.serialize.length = 28 + body.length := by
    intro b
    rw [getRootChunk_serialize_length]
    simp [hfbl]
  have hstream_assoc : (Writer.mk
      ⟨(newWriter s.sampleType rate cc).getRootChunk.serialize ++ s.encode,
        ((newWriter s.sampleType rate cc).getRootChunk.serialize ++ s.encode).length⟩
      s.sampleType (newFormatChunkData cc rate s.sampleType) none
      s.encode.length).getRootChunk.serialize ++
      (s.encode ++ (if s.encode.length % 2 = 1 then [0] else [])) =
      (newRIFFChunk [Chunk.mk formatChunkID body.length body,
        Chunk.mk dataChunkID s.encode.length []]).serialize ++ s.encode ++
        (if s.encode.length % 2 = 1 then [0] else []) := by
    rw [hP2]
    simp [List.append_assoc]
  have hread' : readRIFFChunk ((Writer.mk
      ⟨(newWriter s.sampleType rate cc).getRootChunk.serialize ++ s.encode,
        ((newWriter s.sampleType rate cc).getRootChunk.serialize ++ s.encode).length⟩
      s.sampleType (newFormatChunkData cc rate s.sampleType) none
      s.encode.length).getRootChunk.serialize ++
      (s.encode ++ (if s.encode.length % 2 = 1 then [0] else []))) =
      .ok (28 + body.length + s.encode.length + s.encode.length % 2,
        [Chunk.mk formatChunkID body.length body,
         Chunk.mk dataChunkID s.encode.length []],
        28 + body.length) := by
    rw [hstream_assoc]
    exact readRIFF_writer_stream_nofact body s.encode hflev hfb64 hsmall
  have hparse' : parseHeaderFromRIFFChunk
      (28 + body.length + s.encode.length + s.encode.length % 2)
      [Chunk.mk formatChunkID body.length body,
       Chunk.mk dataChunkID s.encode.length []] =
      .ok ⟨28 + body.length + s.encode.length + s.encode.length % 2,
        newFormatChunkData cc rate s.sampleType, none, none, s.encode.length, []⟩ :=
    parseHeader_writer_chunks body none s.encode.length
      (28 + body.length + s.encode.length + s.encode.length % 2)
      (newFormatChunkData cc rate s.sampleType) hdeser (by simp)
  refine ⟨_, _, ⟨28 + body.length + s.encode.length + s.encode.length % 2,
      newFormatChunkData cc rate s.sampleType, none, none, s.encode.length, []⟩,
    ⟨(Writer.mk
        ⟨(newWriter s.sampleType rate cc).getRootChunk.serialize ++ s.encode,
          ((newWriter s.sampleType rate cc).getRootChunk.serialize ++ s.encode).length⟩
        s.sampleType (newFormatChunkData cc rate s.sampleType) none
        s.encode.length).getRootChunk.serialize ++
        (s.encode ++ (if s.encode.length % 2 = 1 then [0] else [])),
      28 + body.length,
      some ⟨28 + body.length + s.encode.length + s.encode.length % 2,
        newFormatChunkData cc rate s.sampleType, none, none, s.encode.length, []⟩,
      s.encode.length⟩,
    hw1, hflush, ?_, rfl, rfl, rfl, rfl, rfl, rfl, rfl, ?_, ?_⟩
  · simp only [Reader.getHeader, newReader, hread', hparse']
  · show s.encode.length ≤ _ - (28 + body.length)
    simp only [List.length_append, hP2lenG, padList_length]
    omega
  · rw [List.drop_left' (hP2lenG _), List.take_left]

/-- Write–flush–parse pipeline, non-PCM (fact chunk) case. -/
theorem stream_after_flush_fact (s : Samples) (rate cc : Nat)
    (hcc1 : 1 ≤ cc)
    (hcc : s.sampleType.size * cc < 65536)
    (hrate : rate < 4294967296)
    (hmod : s.count % cc = 0)
    (hsmall : s.encode.length + 200 < 4294967296)
    (hfc : (newFormatChunkData cc rate s.sampleType).formatCode ≠ formatCodePCM) :
    ∃ (w1 w2 : Writer) (hdr : Header) (r1 : Reader),
      writeSamples (newWriter s.sampleType rate cc) s = (none, w1) ∧
      w1.flush = .ok (none, w2) ∧
      (newReader w2.base.buf).getHeader = .ok (hdr, r1) ∧
      hdr.formatData = newFormatChunkData cc rate s.sampleType ∧
      hdr.factData = some (s.encode.length / (s.sampleType.size * cc)) ∧
      hdr.cueData = none ∧
      hdr.dataBytes = s.encode.length ∧
      hdr.additionalChunks = [] ∧
      r1.data = w2.base.buf ∧
      r1.dataRemaining = s.encode.length ∧
      s.encode.length ≤ r1.data.length - r1.pos ∧
      (r1.data.drop r1.pos).take s.encode.length = s.encode := by
  have hElen : s.encode.length = s.sampleType.size * s.count := Samples.encode_length s
  have hszpos := SampleType.size_pos s.sampleType
  have hba' : (newFormatChunkData cc rate s.sampleType).blockAlign =
      s.sampleType.size * cc := newFormat_blockAlign cc rate s.sampleType hcc
  have hbane : (newFormatChunkData cc rate s.sampleType).blockAlign ≠ 0 := by
    rw [hba']
    have := Nat.mul_pos hszpos hcc1
    omega
  have hmodE : s.encode.length % (newFormatChunkData cc rate s.sampleType).blockAlign = 0 := by
    rw [hba', hElen]
    obtain ⟨k, hk⟩ := Nat.dvd_of_mod_eq_zero hmod
    rw [hk, show s.sampleType.size * (cc * k) = s.sampleType.size * cc * k from by ring]
    exact Nat.mul_mod_right _ _
  obtain ⟨body, hser, hblen, hdeser⟩ :=
    newFormat_roundtrip cc rate s.sampleType hcc1 hcc hrate
  have hflev : body.length % 2 = 0 := by rw [hblen]; exact newFmtLen_even cc s.sampleType
  have hfb64 : body.length ≤ 64 := by rw [hblen]; exact newFmtLen_le cc s.sampleType
  have hfbl : fmtBodyLen (newFormatChunkData cc rate s.sampleType) = body.length := by
    unfold fmtBodyLen
    rw [hser]
  have hdb : s.sampleType.size * s.count % 4294967296 = s.encode.length := by
    rw [← hElen, Nat.mod_eq_of_lt (by omega)]
  have hw1 : writeSamples (newWriter s.sampleType rate cc) s =
      (none, Writer.mk
        ⟨(newWriter s.sampleType rate cc).getRootChunk.serialize ++ s.encode,
          ((newWriter s.sampleType rate cc).getRootChunk.serialize ++ s.encode).length⟩
        s.sampleType (newFormatChunkData cc rate s.sampleType) (some 0) s.encode.length) := by
    rw [writeSamples_run]
    simp [hfc, hdb]
  have hlenP0 : (newWriter s.sampleType rate cc).getRootChunk.serialize.length =
      40 + fmtBodyLen (newFormatChunkData cc rate s.sampleType) := by
    rw [getRootChunk_serialize_length]
    simp [newWriter, hfc]
    omega
  have hflush := flush_run_fact
    ⟨(newWriter s.sampleType rate cc).getRootChunk.serialize ++ s.encode,
      ((newWriter s.sampleType rate cc).getRootChunk.serialize ++ s.encode).length⟩
    s.sampleType (newFormatChunkData cc rate s.sampleType) 0
    ((newWriter s.sampleType rate cc).getRootChunk.serialize) s.encode
    rfl hbane hmodE hlenP0
  have hP2 : (Writer.mk
      ⟨(newWriter s.sampleType rate cc).getRootChunk.serialize ++ s.encode,
        ((newWriter s.sampleType rate cc).getRootChunk.serialize ++ s.encode).length⟩
      s.sampleType (newFormatChunkData cc rate s.sampleType)
      (some (s.encode.length / (newFormatChunkData cc rate s.sampleType).blockAlign))
      s.encode.length).getRootChunk =
      newRIFFChunk [Chunk.mk formatChunkID body.length body,
        Chunk.mk factChunkID 4
          (toLE32 (s.encode.length / (newFormatChunkData cc rate s.sampleType).blockAlign)),
        Chunk.mk dataChunkID s.encode.length []] :=
    getRootChunk_eq _ _ _ _ _ body hser
  have hP2lenG : ∀ b : BWriter, (Writer.mk b
      s.sampleType (newFormatChunkData cc rate s.sampleType)
      (some (s.encode.length / (newFormatChunkData cc rate s.sampleType).blockAlign))
      s.encode.length).getRootChunk.serialize.length = 40 + body.length := by
    intro b
    rw [getRootChunk_serialize_length]
    simp [hfbl]
    omega
  have hstream_assoc : (Writer.mk
      ⟨(newWriter s.sampleType rate cc).getRootChunk.serialize ++ s.encode,
        ((newWriter s.sampleType rate cc).getRootChunk.serialize ++ s.encode).length⟩
      s.sampleType (newFormatChunkData cc rate s.sampleType)
      (some (s.encode.length / (newFormatChunkData cc rate s.sampleType).blockAlign))
      s.encode.length).getRootChunk.serialize ++
      (s.encode ++ (if s.encode.length % 2 = 1 then [0] else [])) =
      (newRIFFChunk [Chunk.mk formatChunkID body.length body,
        Chunk.mk factChunkID 4
          (toLE32 (s.encode.length / (newFormatChunkData cc rate s.sampleType).blockAlign)),
        Chunk.mk dataChunkID s.encode.length []]).serialize ++ s.encode ++
        (if s.encode.length % 2 = 1 then [0] else []) := by
    rw [hP2]
    simp [List.append_assoc]
  have hread' : readRIFFChunk ((Writer.mk
      ⟨(newWriter s.sampleType rate cc).getRootChunk.serialize ++ s.encode,
        ((newWriter s.sampleType rate cc).getRootChunk.serialize ++ s.encode).length⟩
      s.sampleType (newFormatChunkData cc rate s.sampleType)
      (some (s.encode.length / (newFormatChunkData cc rate s.sampleType).blockAlign))
      s.encode.length).getRootChunk.serialize ++
      (s.encode ++ (if s.encode.length % 2 = 1 then [0] else []))) =
      .ok (40 + body.length + s.encode.length + s.encode.length % 2,
        [Chunk.mk formatChunkID body.length body,
         Chunk.mk factChunkID 4
           (toLE32 (s.encode.length / (newFormatChunkData cc rate s.sampleType).blockAlign)),
         Chunk.mk dataChunkID s.encode.length []],
        40 + body.length) := by
    rw [hstream_assoc]
    exact readRIFF_writer_stream_fact body
      (s.encode.length / (newFormatChunkData cc rate s.sampleType).blockAlign)
      s.encode hflev hfb64 hsmall
  have hparse' : parseHeaderFromRIFFChunk
      (40 + body.length + s.encode.length + s.encode.length % 2)
      [Chunk.mk formatChunkID body.length body,
       Chunk.mk factChunkID 4
         (toLE32 (s.encode.length / (newFormatChunkData cc rate s.sampleType).blockAlign)),
       Chunk.mk dataChunkID s.encode.length []] =
      .ok ⟨40 + body.length + s.encode.length + s.encode.length % 2,
        newFormatChunkData cc rate s.sampleType,
        some (s.encode.length / (newFormatChunkData cc rate s.sampleType).blockAlign),
        none, s.encode.length, []⟩ :=
    parseHeader_writer_chunks body
      (some (s.encode.length / (newFormatChunkData cc rate s.sampleType).blockAlign))
      s.encode.length
      (40 + body.length + s.encode.length + s.encode.length % 2)
      (newFormatChunkData cc rate s.sampleType) hdeser
      (by
        intro v hv
        simp only [Option.mem_def, Option.some.injEq] at hv
        have := Nat.div_le_self s.encode.length
          (newFormatChunkData cc rate s.sampleType).blockAlign
        omega)
  refine ⟨_, _, ⟨40 + body.length + s.encode.length + s.encode.length % 2,
      newFormatChunkData cc rate s.sampleType,
      some (s.encode.length / (newFormatChunkData cc rate s.sampleType).blockAlign),
      none, s.encode.length, []⟩,
    ⟨(Writer.mk
        ⟨(newWriter s.sampleType rate cc).getRootChunk.serialize ++ s.encode,
          ((newWriter s.sampleType rate cc).getRootChunk.serialize ++ s.encode).length⟩
        s.sampleType (newFormatChunkData cc rate s.sampleType)
        (some (s.encode.length / (newFormatChunkData cc rate s.sampleType).blockAlign))
        s.encode.length).getRootChunk.serialize ++
        (s.encode ++ (if s.encode.length % 2 = 1 then [0] else [])),
      40 + body.length,
      some ⟨40 + body.length + s.encode.length + s.encode.length % 2,
        newFormatChunkData cc rate s.sampleType,
        some (s.encode.length / (newFormatChunkData cc rate s.sampleType).blockAlign),
        none, s.encode.length, []⟩,
      s.encode.length⟩,
    hw1, hflush, ?_, rfl, ?_, rfl, rfl, rfl, rfl, rfl, ?_, ?_⟩
  · simp only [Reader.getHeader, newReader, hread', hparse']
  · rw [hba']
  · show s.encode.length ≤ _ - (40 + body.length)
    simp only [List.length_append, hP2lenG, padList_length]
    omega
  · rw [List.drop_left' (hP2lenG _), List.take_left]



/-- Reading back a full typed sequence: when the header resolves to the
sequence's type and the data chunk holds exactly its encoding, the typed
read returns the original values, the full count, and no error. -/
theorem readSamples_run (s : Samples) (r : Reader) (hdr : Header) (r1 : Reader)
    (hval : s.Valid)
    (hcnt : 0 < s.count)
    (hgh : r.getHeader = .ok (hdr, r1))
    (hst : hdr.sampleType = .ok s.sampleType)
    (hrem : r1.dataRemaining = s.encode.length)
    (hbound : s.encode.length ≤ r1.data.length - r1.pos)
    (htake : (r1.data.drop r1.pos).take s.encode.length = s.encode) :
    ∃ r2 : Reader, readSamples r s.sampleType s.count = .ok ((s, s.count, none), r2) := by
  cases s with
  | uint8 xs =>
    simp only [Samples.sampleType] at hst
    simp only [Samples.encode] at hrem hbound htake
    simp only [Samples.count] at hcnt
    refine ⟨{ r1 with pos := r1.pos + xs.length, dataRemaining := r1.dataRemaining - xs.length }, ?_⟩
    simp only [readSamples, Samples.sampleType, Reader.readUint8, hgh, hst, Samples.count]
    rw [if_neg (by simp)]
    rw [if_neg (by omega), if_neg (by omega)]
    simp only
    rw [show min xs.length (min (r1.data.length - r1.pos) r1.dataRemaining) =
      xs.length from by omega]
    rw [htake]
  | int16 xs =>
    simp only [Samples.sampleType] at hst
    simp only [Samples.encode] at hrem hbound htake
    simp only [Samples.Valid] at hval
    rw [encInt16List_length] at hrem hbound htake
    obtain ⟨r2, hrc⟩ := readChunk_full r1 (xs.length * 2)
      (by rw [hrem]; ring) (by omega)
    refine ⟨r2, ?_⟩
    simp only [readSamples, Samples.sampleType, Reader.readInt16, hgh, hst, Samples.count]
    rw [if_neg (by simp)]
    simp only [hrc]
    rw [show xs.length * 2 = 2 * xs.length from by ring, htake]
    rw [decInt16List_encInt16List xs hval, encInt16List_length]
    rw [show 2 * xs.length / 2 = xs.length from by omega]
  | int24 xs =>
    simp only [Samples.sampleType] at hst
    simp only [Samples.encode] at hrem hbound htake
    simp only [Samples.Valid] at hval
    rw [writePackedInt24_length] at hrem hbound htake
    obtain ⟨r2, hrc⟩ := readChunk_full r1 (xs.length * 3)
      (by rw [hrem]; ring) (by omega)
    refine ⟨r2, ?_⟩
    simp only [readSamples, Samples.sampleType, Reader.readInt24, hgh, hst, Samples.count]
    rw [if_neg (by simp)]
    simp only [hrc]
    rw [show xs.length * 3 = 3 * xs.length from by ring, htake]
    rw [unpackList_packList xs hval, writePackedInt24_length]
    rw [show 3 * xs.length / 3 = xs.length from by omega]
  | int32 xs =>
    simp only [Samples.sampleType] at hst
    simp only [Samples.encode] at hrem hbound htake
    simp only [Samples.Valid] at hval
    rw [encInt32List_length] at hrem hbound htake
    obtain ⟨r2, hrc⟩ := readChunk_full r1 (xs.length * 4)
      (by rw [hrem]; ring) (by omega)
    refine ⟨r2, ?_⟩
    simp only [readSamples, Samples.sampleType, Reader.readInt32, hgh, hst, Samples.count]
    rw [if_neg (by simp)]
    simp only [hrc]
    rw [show xs.length * 4 = 4 * xs.length from by ring, htake]
    rw [decInt32List_encInt32List xs hval, encInt32List_length]
    rw [show 4 * xs.length / 4 = xs.length from by omega]
  | float32 xs =>
    simp only [Samples.sampleType] at hst
    simp only [Samples.encode] at hrem hbound htake
    simp only [Samples.Valid] at hval
    rw [encFloat32List_length] at hrem hbound htake
    obtain ⟨r2, hrc⟩ := readChunk_full r1 (xs.length * 4)
      (by rw [hrem]; ring) (by omega)
    refine ⟨r2, ?_⟩
    simp only [readSamples, Samples.sampleType, Reader.readFloat32, hgh, hst, Samples.count]
    rw [if_neg (by simp)]
    simp only [hrc]
    rw [show xs.length * 4 = 4 * xs.length from by ring, htake]
    rw [decFloat32List_encFloat32List xs hval, encFloat32List_length]
    rw [show 4 * xs.length / 4 = xs.length from by omega]
  | float64 xs =>
    simp only [Samples.sampleType] at hst
    simp only [Samples.encode] at hrem hbound htake
    simp only [Samples.Valid] at hval
    rw [encFloat64List_length] at hrem hbound htake
    obtain ⟨r2, hrc⟩ := readChunk_full r1 (xs.length * 8)
      (by rw [hrem]; ring) (by omega)
    refine ⟨r2, ?_⟩
    simp only [readSamples, Samples.sampleType, Reader.readFloat64, hgh, hst, Samples.count]
    rw [if_neg (by simp)]
    simp only [hrc]
    rw [show xs.length * 8 = 8 * xs.length from by ring, htake]
    rw [decFloat64List_encFloat64List xs hval, encFloat64List_length]
    rw [show 8 * xs.length / 8 = xs.length from by omega]



/-- Every sample type occupies at most eight bytes. -/
theorem SampleType.size_le (st : SampleType) : st.size ≤ 8 := by
  cases st <;> simp [SampleType.size]

/-- C1: for every sample type, channel count in {1,2,4}, and nonempty
frame-aligned in-range sample sequence (within the format's `uint32`
capacity), writing the sequence with the writer's typed write, flushing,
and reading the produced bytes back with the reader's typed read yields
the identical sequence with no error, and the parsed header's sample
type resolves to the written type.  (Nonemptiness matters only for the
unstaged uint8 read, whose bare `Read` on an exhausted `LimitReader`
reports `io.EOF`.) -/
theorem C1_roundtrip (s : Samples) (rate cc : Nat)
    (hval : s.Valid)
    (hcnt : 0 < s.count)
    (hcc : cc = 1 ∨ cc = 2 ∨ cc = 4)
    (hmod : s.count % cc = 0)
    (hrate : rate < 4294967296)
    (hsmall : s.sampleType.size * s.count + 200 < 4294967296) :
    ∃ (w1 w2 : Writer) (hdr : Header) (r1 r2 : Reader),
      writeSamples (newWriter s.sampleType rate cc) s = (none, w1) ∧
      w1.flush = .ok (none, w2) ∧
      (newReader w2.base.buf).getHeader = .ok (hdr, r1) ∧
      hdr.sampleType = .ok s.sampleType ∧
      readSamples (newReader w2.base.buf) s.sampleType s.count =
        .ok ((s, s.count, none), r2) := by
  have hcc1 : 1 ≤ cc := by omega
  have hccb : s.sampleType.size * cc < 65536 := by
    have h8 := SampleType.size_le s.sampleType
    rcases hcc with rfl | rfl | rfl <;> omega
  have hsm' : s.encode.length + 200 < 4294967296 := by
    rw [Samples.encode_length]
    omega
  by_cases hfc : (newFormatChunkData cc rate s.sampleType).formatCode = formatCodePCM
  · obtain ⟨w1, w2, hdr, r1, h1, h2, h3, h4, h5, h6, h7, h8, h9, h10, h11, h12⟩ :=
      stream_after_flush_nofact s rate cc hcc1 hccb hrate hmod hsm' hfc
    have hstype : hdr.sampleType = .ok s.sampleType := by
      cases hdr with
      | mk fs fd fa cu db ad =>
        simp only at h4
        rw [h4]
        exact sampleType_newFormat fs fa cu db ad cc rate s.sampleType
    obtain ⟨r2, hread⟩ := readSamples_run s (newReader w2.base.buf) hdr r1 hval hcnt h3
      hstype h10 h11 h12
    exact ⟨w1, w2, hdr, r1, r2, h1, h2, h3, hstype, hread⟩
  · obtain ⟨w1, w2, hdr, r1, h1, h2, h3, h4, h5, h6, h7, h8, h9, h10, h11, h12⟩ :=
      stream_after_flush_fact s rate cc hcc1 hccb hrate hmod hsm' hfc
    have hstype : hdr.sampleType = .ok s.sampleType := by
      cases hdr with
      | mk fs fd fa cu db ad =>
        simp only at h4
        rw [h4]
        exact sampleType_newFormat fs fa cu db ad cc rate s.sampleType
    obtain ⟨r2, hread⟩ := readSamples_run s (newReader w2.base.buf) hdr r1 hval hcnt h3
      hstype h10 h11 h12
    exact ⟨w1, w2, hdr, r1, r2, h1, h2, h3, hstype, hread⟩

/-- C1 witness: a concrete two-sample, two-channel 8-bit round trip. -/
theorem C1_roundtrip_witness :
    (Samples.uint8 [1, 2]).Valid ∧
    0 < (Samples.uint8 [1, 2]).count ∧
    (2 = 1 ∨ 2 = 2 ∨ 2 = 4) ∧
    (Samples.uint8 [1, 2]).count % 2 = 0 ∧
    (8000 : Nat) < 4294967296 ∧
    (Samples.uint8 [1, 2]).sampleType.size * (Samples.uint8 [1, 2]).count + 200 < 4294967296 ∧
    (∃ (w1 w2 : Writer) (hdr : Header) (r1 r2 : Reader),
      writeSamples (newWriter (Samples.uint8 [1, 2]).sampleType 8000 2) (.uint8 [1, 2]) =
        (none, w1) ∧
      w1.flush = .ok (none, w2) ∧
      (newReader w2.base.buf).getHeader = .ok (hdr, r1) ∧
      hdr.sampleType = .ok (Samples.uint8 [1, 2]).sampleType ∧
      readSamples (newReader w2.base.buf) (Samples.uint8 [1, 2]).sampleType
          (Samples.uint8 [1, 2]).count =
        .ok ((.uint8 [1, 2], (Samples.uint8 [1, 2]).count, none), r2)) :=
  ⟨by simp only [Samples.Valid]; decide, by decide, by decide, by decide, by decide,
    by decide,
    C1_roundtrip (.uint8 [1, 2]) 8000 2 (by simp only [Samples.Valid]; decide)
      (by decide) (by decide) (by decide) (by decide) (by decide)⟩



/-- C2: over any sequence of successful writer operations (appends and
flushes), the serialized preamble's byte length never changes — the
preamble rewritten later is byte-length-identical to the one written
first. -/
theorem C2_preamble_length_stable (w w' : Writer) (h : ReachableFrom w w') :
    w'.getRootChunk.serialize.length = w.getRootChunk.serialize.length := by
  obtain ⟨hf, hfa⟩ := reachable_preserves w w' h
  rw [getRootChunk_serialize_length, getRootChunk_serialize_length, hf, hfa]

/-- C2 witness: the preamble length of a concrete writer under the
reflexive lifetime. -/
theorem C2_preamble_length_stable_witness :
    ReachableFrom (newWriter .uint8 8000 1) (newWriter .uint8 8000 1) ∧
    (newWriter .uint8 8000 1).getRootChunk.serialize.length =
      (newWriter .uint8 8000 1).getRootChunk.serialize.length :=
  ⟨Relation.ReflTransGen.refl,
    C2_preamble_length_stable (newWriter .uint8 8000 1) (newWriter .uint8 8000 1)
      Relation.ReflTransGen.refl⟩

/-- C8: the parsing side is not total — the code panics on malformed
input.  A 24-byte cue payload declaring one cue point passes the
too-short check (which omits the 4-byte count header) and then indexes
out of bounds, and `FrameCount` divides by a zero block align taken
straight from the parsed header. -/
theorem C8_safety_violation :
    deserializeCueChunkData (toLE32 1 ++ List.replicate 20 0) = .panic ∧
    (Header.mk 0 (FormatChunkData.mk 1 1 8000 8000 0 8 none none none)
      none none 4 []).frameCount = .panic := by
  constructor
  · rfl
  · rfl

/-- C9: packing a list of in-range 24-bit values and unpacking the
produced bytes recovers the list exactly, and unpacking any byte
sequence whose length is not a multiple of three fails with the
invalid-input error. -/
theorem C9_int24_roundtrip (xs : List Int)
    (hr : ∀ x ∈ xs, -8388608 ≤ x ∧ x < 8388608) :
    readPackedInt24 (writePackedInt24 xs) = .ok xs ∧
    (∀ data : List Nat, data.length % 3 ≠ 0 →
      readPackedInt24 data = .error .ioInvalid24BitInput) := by
  constructor
  · unfold readPackedInt24
    rw [if_neg (by rw [writePackedInt24_length]; omega)]
    rw [unpackList_packList xs hr]
  · intro data hd
    unfold readPackedInt24
    rw [if_pos hd]

/-- C9 witness: a concrete three-value round trip. -/
theorem C9_int24_roundtrip_witness :
    (∀ x ∈ [(5 : Int), -3, 8388607], -8388608 ≤ x ∧ x < 8388608) ∧
    (readPackedInt24 (writePackedInt24 [(5 : Int), -3, 8388607]) =
        .ok [(5 : Int), -3, 8388607] ∧
      (∀ data : List Nat, data.length % 3 ≠ 0 →
        readPackedInt24 data = .error .ioInvalid24BitInput)) :=
  ⟨by decide, C9_int24_roundtrip [(5 : Int), -3, 8388607] (by decide)⟩

/-- C10: a typed write whose sample type differs from the writer's
configured type returns the matching expected-type error and leaves the
writer's entire state (sink bytes, head position, byte count) unchanged. -/
theorem C10_mismatch_no_effect (w : Writer) (s : Samples)
    (hne : s.sampleType ≠ w.sampleType) :
    writeSamples w s =
      (some (match s with
        | .uint8 _ => .writerExpectedUint8
        | .int16 _ => .writerExpectedInt16
        | .int24 _ => .writerExpectedInt24
        | .int32 _ => .writerExpectedInt32
        | .float32 _ => .writerExpectedFloat32
        | .float64 _ => .writerExpectedFloat64), w) := by
  cases s with
  | uint8 xs =>
    simp only [Samples.sampleType] at hne
    simp only [writeSamples, Writer.writeUint8]
    rw [if_pos (Ne.symm hne)]
  | int16 xs =>
    simp only [Samples.sampleType] at hne
    simp only [writeSamples, Writer.writeInt16]
    rw [if_pos (Ne.symm hne)]
  | int24 xs =>
    simp only [Samples.sampleType] at hne
    simp only [writeSamples, Writer.writeInt24]
    rw [if_pos (Ne.symm hne)]
  | int32 xs =>
    simp only [Samples.sampleType] at hne
    simp only [writeSamples, Writer.writeInt32]
    rw [if_pos (Ne.symm hne)]
  | float32 xs =>
    simp only [Samples.sampleType] at hne
    simp only [writeSamples, Writer.writeFloat32]
    rw [if_pos (Ne.symm hne)]
  | float64 xs =>
    simp only [Samples.sampleType] at hne
    simp only [writeSamples, Writer.writeFloat64]
    rw [if_pos (Ne.symm hne)]

/-- C10 witness: a uint8 write on an int16-configured writer. -/
theorem C10_mismatch_no_effect_witness :
    (Samples.uint8 [1]).sampleType ≠ (newWriter .int16 8000 1).sampleType ∧
    writeSamples (newWriter .int16 8000 1) (.uint8 [1]) =
      (some .writerExpectedUint8, newWriter .int16 8000 1) :=
  ⟨by decide, C10_mismatch_no_effect (newWriter .int16 8000 1) (.uint8 [1]) (by decide)⟩



/-- C7: cue-chunk deserialization on the documented two-point layout
(the repository's own normal-path test input) returns the first 24-byte
entry twice instead of decoding the i-th point from the i-th entry — the
read offsets never advance past the first entry. -/
theorem C7_cue_layout_bug :
    deserializeCueChunkData (toLE32 2 ++
      (toLE32 1 ++ toLE32 0 ++ dataChunkID ++ toLE32 0 ++ toLE32 42 ++ toLE32 14) ++
      (toLE32 2 ++ toLE32 0 ++ dataChunkID ++ toLE32 0 ++ toLE32 88 ++ toLE32 64)) =
      .ok ⟨[⟨1, 0, dataChunkID, 0, 42, 14⟩, ⟨1, 0, dataChunkID, 0, 42, 14⟩]⟩ := by
  rfl

/-- C6 counterexample: a nested-Extensible header (extensible format
code whose sub-format is again the extensible code) with 32 bits per
sample resolves to `Float32` instead of failing, although the effective
code is neither PCM nor IEEE-float. -/
theorem C6_counterexample :
    (Header.mk 0 (FormatChunkData.mk formatCodeExtensible 1 8000 8000 1 32
        (some 32) (some 0) (some formatCodeExtensible)) none none 0 []).sampleType =
      .ok .float32 := by
  rfl

/-- C6 (amended): the sample-type mapping resolves the effective format
code; the PCM branch accepts widths 8/16/24/32, while every other valid
effective code — IEEE-float, but also a nested Extensible sub-format —
falls into the float branch accepting 32/64; any other width fails with
an error naming the bad width, and an invalid effective code fails with
the invalid-format-code error. -/
theorem C6_sampleType_mapping (h : Header) (fc : Nat)
    (hefc : h.formatData.effectiveFormatCode = .ok fc) :
    (¬ formatCodeIsValid fc → h.sampleType = .error (.invalidFormatCode fc)) ∧
    (formatCodeIsValid fc → fc = formatCodePCM →
      ((h.formatData.bitsPerSample = 8 → h.sampleType = .ok .uint8) ∧
       (h.formatData.bitsPerSample = 16 → h.sampleType = .ok .int16) ∧
       (h.formatData.bitsPerSample = 24 → h.sampleType = .ok .int24) ∧
       (h.formatData.bitsPerSample = 32 → h.sampleType = .ok .int32) ∧
       (h.formatData.bitsPerSample ≠ 8 → h.formatData.bitsPerSample ≠ 16 →
        h.formatData.bitsPerSample ≠ 24 → h.formatData.bitsPerSample ≠ 32 →
        h.sampleType = .error (.unknownPCMBits h.formatData.bitsPerSample)))) ∧
    (formatCodeIsValid fc → fc ≠ formatCodePCM →
      ((h.formatData.bitsPerSample = 32 → h.sampleType = .ok .float32) ∧
       (h.formatData.bitsPerSample = 64 → h.sampleType = .ok .float64) ∧
       (h.formatData.bitsPerSample ≠ 32 → h.formatData.bitsPerSample ≠ 64 →
        h.sampleType = .error (.unknownIEEEFloatBits h.formatData.bitsPerSample)))) := by
  simp only [Header.sampleType, hefc]
  refine ⟨?_, ?_, ?_⟩
  · intro hbad
    rw [if_pos hbad]
  · intro hv hpcm
    rw [if_neg (by simp [hv]), if_pos hpcm]
    refine ⟨fun h8 => by rw [h8], fun h16 => by rw [h16], fun h24 => by rw [h24],
      fun h32 => by rw [h32], fun h8 h16 h24 h32 => ?_⟩
    split <;> simp_all
  · intro hv hpcm
    rw [if_neg (by simp [hv]), if_neg hpcm]
    refine ⟨fun h32 => by rw [h32], fun h64 => by rw [h64], fun h32 h64 => ?_⟩
    split <;> simp_all



/-- A concrete valid PCM 16-bit header used to witness the sample-type
mapping. -/
def c6Header : Header :=
  ⟨0, ⟨formatCodePCM, 1, 8000, 16000, 2, 16, none, none, none⟩, none, none, 0, []⟩

/-- C6 witness: the mapping at a concrete PCM 16-bit header. -/
theorem C6_sampleType_mapping_witness :
    c6Header.formatData.effectiveFormatCode = .ok formatCodePCM ∧
    ((¬ formatCodeIsValid formatCodePCM →
        c6Header.sampleType = .error (.invalidFormatCode formatCodePCM)) ∧
     (formatCodeIsValid formatCodePCM → formatCodePCM = formatCodePCM →
       ((c6Header.formatData.bitsPerSample = 8 → c6Header.sampleType = .ok .uint8) ∧
        (c6Header.formatData.bitsPerSample = 16 → c6Header.sampleType = .ok .int16) ∧
        (c6Header.formatData.bitsPerSample = 24 → c6Header.sampleType = .ok .int24) ∧
        (c6Header.formatData.bitsPerSample = 32 → c6Header.sampleType = .ok .int32) ∧
        (c6Header.formatData.bitsPerSample ≠ 8 → c6Header.formatData.bitsPerSample ≠ 16 →
         c6Header.formatData.bitsPerSample ≠ 24 → c6Header.formatData.bitsPerSample ≠ 32 →
         c6Header.sampleType = .error (.unknownPCMBits c6Header.formatData.bitsPerSample)))) ∧
     (formatCodeIsValid formatCodePCM → formatCodePCM ≠ formatCodePCM →
       ((c6Header.formatData.bitsPerSample = 32 → c6Header.sampleType = .ok .float32) ∧
        (c6Header.formatData.bitsPerSample = 64 → c6Header.sampleType = .ok .float64) ∧
        (c6Header.formatData.bitsPerSample ≠ 32 → c6Header.formatData.bitsPerSample ≠ 64 →
         c6Header.sampleType = .error (.unknownIEEEFloatBits c6Header.formatData.bitsPerSample))))) :=
  ⟨rfl, C6_sampleType_mapping c6Header formatCodePCM rfl⟩

/-- C3 counterexample: the claim quantifies over every writer, but an
int16 writer constructed with 32768 channels has a zero block align
(`uint16` wrap), and after one sample is appended the accumulated count
is not a multiple of the block align — the claim then demands the
invalid-byte-count error, yet `Flush` panics (Go `%` by zero). -/
theorem C3_counterexample :
    (writeSamples (newWriter .int16 8000 32768) (.int16 [5])).1 = none ∧
    (writeSamples (newWriter .int16 8000 32768) (.int16 [5])).2.dataBytes %
      (writeSamples (newWriter .int16 8000 32768)
        (.int16 [5])).2.formatChunkData.blockAlign ≠ 0 ∧
    (writeSamples (newWriter .int16 8000 32768) (.int16 [5])).2.flush = .panic := by
  refine ⟨rfl, by decide, rfl⟩



/-- C3 (amended): for every writer whose block align is nonzero, `Flush`
returns the invalid-byte-count error exactly when the accumulated byte
count is not a multiple of the block align — and then leaves the writer
and its sink untouched; and for a single-channel 8-bit layout (block
align 1) whose accumulated byte count is odd, `Flush` appends exactly one
zero padding byte after the data while the rewritten preamble's
data-chunk size field still declares the pre-padding count. -/
theorem C3_flush_alignment (bse : BWriter) (wst : SampleType)
    (wfcd : FormatChunkData) (fact : Option Nat) (db : Nat)
    (hba : wfcd.blockAlign ≠ 0) :
    (db % wfcd.blockAlign ≠ 0 →
      (Writer.mk bse wst wfcd fact db).flush =
        .ok (some .writerInvalidByteCount, Writer.mk bse wst wfcd fact db)) ∧
    (∀ e w', (Writer.mk bse wst wfcd fact db).flush = .ok (e, w') →
      e = some .writerInvalidByteCount → db % wfcd.blockAlign ≠ 0) ∧
    (∀ P B body, bse = ⟨P ++ B, (P ++ B).length⟩ → fact = none →
      wfcd.blockAlign = 1 → db = B.length → B.length % 2 = 1 →
      wfcd.serialize = .ok body → P.length = 28 + fmtBodyLen wfcd →
      (Writer.mk bse wst wfcd fact db).flush =
        .ok (none, Writer.mk
          ⟨(newRIFFChunk [Chunk.mk formatChunkID body.length body,
              Chunk.mk dataChunkID B.length []]).serialize ++ (B ++ [0]),
            ((newRIFFChunk [Chunk.mk formatChunkID body.length body,
              Chunk.mk dataChunkID B.length []]).serialize).length⟩
          wst wfcd none B.length)) := by
  refine ⟨?_, ?_, ?_⟩
  · intro hne
    unfold Writer.flush
    rw [if_neg hba, if_pos hne]
  · intro e w' heq hEe
    by_cases hm : db % wfcd.blockAlign ≠ 0
    · exact hm
    · exfalso
      unfold Writer.flush at heq
      rw [if_neg hba, if_neg hm] at heq
      simp only [GoResult.ok.injEq, Prod.mk.injEq] at heq
      rw [← heq.1] at hEe
      simp at hEe
  · intro P B body hbse hfact hba1 hdb hodd hser hlen
    subst hbse hfact hdb
    have hmod : B.length % wfcd.blockAlign = 0 := by
      rw [hba1]
      exact Nat.mod_one _
    rw [flush_run_nofact ⟨P ++ B, (P ++ B).length⟩ wst wfcd P B rfl hba hmod hlen]
    rw [getRootChunk_eq ⟨P ++ B, (P ++ B).length⟩ wst wfcd none B.length body hser]
    rw [if_pos hodd]
    rfl

/-- C3 witness: a fresh single-channel 8-bit writer (block align 1). -/
theorem C3_flush_alignment_witness :
    (newFormatChunkData 1 8000 .uint8).blockAlign ≠ 0 ∧
    ((0 % (newFormatChunkData 1 8000 .uint8).blockAlign ≠ 0 →
      (Writer.mk ⟨[], 0⟩ .uint8 (newFormatChunkData 1 8000 .uint8) none 0).flush =
        .ok (some .writerInvalidByteCount,
          Writer.mk ⟨[], 0⟩ .uint8 (newFormatChunkData 1 8000 .uint8) none 0)) ∧
    (∀ e w', (Writer.mk ⟨[], 0⟩ .uint8 (newFormatChunkData 1 8000 .uint8) none 0).flush =
        .ok (e, w') →
      e = some .writerInvalidByteCount →
      0 % (newFormatChunkData 1 8000 .uint8).blockAlign ≠ 0) ∧
    (∀ P B body, (⟨[], 0⟩ : BWriter) = ⟨P ++ B, (P ++ B).length⟩ →
      (none : Option Nat) = none →
      (newFormatChunkData 1 8000 .uint8).blockAlign = 1 → 0 = B.length →
      B.length % 2 = 1 →
      (newFormatChunkData 1 8000 .uint8).serialize = .ok body →
      P.length = 28 + fmtBodyLen (newFormatChunkData 1 8000 .uint8) →
      (Writer.mk ⟨[], 0⟩ .uint8 (newFormatChunkData 1 8000 .uint8) none 0).flush =
        .ok (none, Writer.mk
          ⟨(newRIFFChunk [Chunk.mk formatChunkID body.length body,
              Chunk.mk dataChunkID B.length []]).serialize ++ (B ++ [0]),
            ((newRIFFChunk [Chunk.mk formatChunkID body.length body,
              Chunk.mk dataChunkID B.length []]).serialize).length⟩
          .uint8 (newFormatChunkData 1 8000 .uint8) none B.length))) :=
  ⟨by decide,
    C3_flush_alignment ⟨[], 0⟩ .uint8 (newFormatChunkData 1 8000 .uint8) none 0 (by decide)⟩



/-- `readChunk` with a nonzero request when nothing is available: `io.EOF`
and an untouched reader. -/
theorem readChunk_eof (r : Reader) (n : Nat) (hn : n ≠ 0)
    (hav : min (r.data.length - r.pos) r.dataRemaining = 0) :
    r.readChunk n = ([], some .eof, r) := by
  unfold Reader.readChunk
  rw [if_neg hn, if_pos hav]

/-- `readChunk` when only a shorter nonzero amount is available: the
available bytes and `io.ErrUnexpectedEOF`. -/
theorem readChunk_partial (r : Reader) (n : Nat)
    (hav : min (r.data.length - r.pos) r.dataRemaining ≠ 0)
    (hlt : min (r.data.length - r.pos) r.dataRemaining < n) :
    r.readChunk n =
      ((r.data.drop r.pos).take (min (r.data.length - r.pos) r.dataRemaining),
        some .unexpectedEOF,
        { r with pos := r.pos + min (r.data.length - r.pos) r.dataRemaining,
                 dataRemaining :=
                   r.dataRemaining - min (r.data.length - r.pos) r.dataRemaining }) := by
  unfold Reader.readChunk
  rw [if_neg (by omega), if_neg hav, if_pos hlt]

/-- `readChunk` when the full nonzero request is available: the requested
bytes and no error. -/
theorem readChunk_full2 (r : Reader) (n : Nat) (hn : n ≠ 0)
    (hle : n ≤ min (r.data.length - r.pos) r.dataRemaining) :
    r.readChunk n = ((r.data.drop r.pos).take n, none,
      { r with pos := r.pos + n, dataRemaining := r.dataRemaining - n }) := by
  unfold Reader.readChunk
  rw [if_neg hn, if_neg (by omega), if_neg (by omega)]

/-- A concrete valid PCM 8-bit header used in the uint8 read
counterexample. -/
def c5u8Header : Header :=
  ⟨0, ⟨formatCodePCM, 1, 8000, 8000, 1, 8, none, none, none⟩, none, none, 1, []⟩

/-- C5 counterexample: a matching uint8 read asking for two samples when
only one data byte is available returns the partial count with no error
— the bare `dataReader.Read` never reports `io.ErrUnexpectedEOF`,
contradicting the claimed tristate for `ReadUint8`. -/
theorem C5_counterexample :
    (Reader.mk [99] 0 (some c5u8Header) 1).readUint8 2 =
      .ok (([99], 1, none), Reader.mk [99] 1 (some c5u8Header) 0) := by
  rfl

/-- C5 (amended): the five staged typed reads follow
read-exactly-or-explain — full availability returns the full element
count with no error, a partial nonzero amount returns the partial
element count with the unexpected-EOF error, and nothing available
returns zero with the EOF error.  `ReadUint8`, which issues one bare
`Read` on the `LimitReader`, instead returns `min(count, available)`
bytes with no error whenever a byte is available, and zero with the EOF
error when nothing is. -/
theorem C5_read_semantics (st : SampleType) (count : Nat) (r : Reader)
    (hdr : Header) (r1 : Reader)
    (hgh : r.getHeader = .ok (hdr, r1))
    (hst : hdr.sampleType = .ok st)
    (hc : 0 < count) :
    (st ≠ .uint8 →
      (count * st.size ≤ min (r1.data.length - r1.pos) r1.dataRemaining →
        ∃ (s : Samples) (r2 : Reader),
          readSamples r st count = .ok ((s, count, none), r2)) ∧
      (0 < min (r1.data.length - r1.pos) r1.dataRemaining →
        min (r1.data.length - r1.pos) r1.dataRemaining < count * st.size →
        ∃ (s : Samples) (r2 : Reader),
          readSamples r st count =
            .ok ((s, min (r1.data.length - r1.pos) r1.dataRemaining / st.size,
              some .unexpectedEOF), r2)) ∧
      (min (r1.data.length - r1.pos) r1.dataRemaining = 0 →
        ∃ (s : Samples) (r2 : Reader),
          readSamples r st count = .ok ((s, 0, some .eof), r2))) ∧
    (st = .uint8 →
      (count ≤ min (r1.data.length - r1.pos) r1.dataRemaining →
        ∃ (s : Samples) (r2 : Reader),
          readSamples r st count = .ok ((s, count, none), r2)) ∧
      (0 < min (r1.data.length - r1.pos) r1.dataRemaining →
        min (r1.data.length - r1.pos) r1.dataRemaining < count →
        ∃ (s : Samples) (r2 : Reader),
          readSamples r st count =
            .ok ((s, min (r1.data.length - r1.pos) r1.dataRemaining, none), r2)) ∧
      (min (r1.data.length - r1.pos) r1.dataRemaining = 0 →
        ∃ (s : Samples) (r2 : Reader),
          readSamples r st count = .ok ((s, 0, some .eof), r2))) := by
  cases st with
  | uint8 =>
    refine ⟨fun hne => absurd rfl hne, fun _ => ⟨?_, ?_, ?_⟩⟩
    · intro hle
      refine ⟨.uint8 ((r1.data.drop r1.pos).take count),
        { r1 with pos := r1.pos + count, dataRemaining := r1.dataRemaining - count }, ?_⟩
      simp only [readSamples, Reader.readUint8, hgh, hst]
      rw [if_neg (by simp)]
      rw [if_neg (by omega), if_neg (by omega)]
      simp only
      rw [show min count (min (r1.data.length - r1.pos) r1.dataRemaining) = count from by omega]
    · intro hpos hlt
      refine ⟨.uint8 ((r1.data.drop r1.pos).take (min (r1.data.length - r1.pos) r1.dataRemaining)),
        { r1 with
          pos := r1.pos + (min (r1.data.length - r1.pos) r1.dataRemaining)
          dataRemaining := r1.dataRemaining - (min (r1.data.length - r1.pos) r1.dataRemaining) }, ?_⟩
      simp only [readSamples, Reader.readUint8, hgh, hst]
      rw [if_neg (by simp)]
      rw [if_neg (by omega), if_neg (by omega)]
      simp only
      rw [show min count (min (r1.data.length - r1.pos) r1.dataRemaining) = min (r1.data.length - r1.pos) r1.dataRemaining from by omega]
    · intro h0
      refine ⟨.uint8 [], r1, ?_⟩
      simp only [readSamples, Reader.readUint8, hgh, hst]
      rw [if_neg (by simp)]
      by_cases hdr0 : r1.dataRemaining = 0
      · rw [if_pos hdr0]
      · rw [if_neg hdr0, if_pos (by omega)]
  | int16 =>
    simp only [SampleType.size]
    refine ⟨fun _ => ⟨?_, ?_, ?_⟩, fun h => absurd h (by decide)⟩
    · intro hle
      refine ⟨.int16 (decInt16List ((r1.data.drop r1.pos).take (count * 2))),
        { r1 with pos := r1.pos + count * 2, dataRemaining := r1.dataRemaining - count * 2 }, ?_⟩
      have hrc := readChunk_full2 r1 (count * 2) (by omega) (by omega)
      simp only [readSamples, Reader.readInt16, hgh, hst]
      rw [if_neg (by simp)]
      simp only [hrc]
      rw [show ((r1.data.drop r1.pos).take (count * 2)).length = count * 2 from by
        rw [List.length_take, List.length_drop]; omega]
      rw [show count * 2 / 2 = count from by omega]
    · intro hpos hlt
      refine ⟨.int16 (decInt16List ((r1.data.drop r1.pos).take (min (r1.data.length - r1.pos) r1.dataRemaining))),
        { r1 with
          pos := r1.pos + (min (r1.data.length - r1.pos) r1.dataRemaining)
          dataRemaining := r1.dataRemaining - (min (r1.data.length - r1.pos) r1.dataRemaining) }, ?_⟩
      have hrc := readChunk_partial r1 (count * 2) (by omega) (by omega)
      simp only [readSamples, Reader.readInt16, hgh, hst]
      rw [if_neg (by simp)]
      simp only [hrc]
      rw [show ((r1.data.drop r1.pos).take (min (r1.data.length - r1.pos) r1.dataRemaining)).length = min (r1.data.length - r1.pos) r1.dataRemaining from by
        rw [List.length_take, List.length_drop]; omega]
    · intro h0
      refine ⟨.int16 (decInt16List ([])), r1, ?_⟩
      have hrc := readChunk_eof r1 (count * 2) (by omega) h0
      simp only [readSamples, Reader.readInt16, hgh, hst]
      rw [if_neg (by simp)]
      simp only [hrc]
      rfl
  | int24 =>
    simp only [SampleType.size]
    refine ⟨fun _ => ⟨?_, ?_, ?_⟩, fun h => absurd h (by decide)⟩
    · intro hle
      refine ⟨.int24 (unpackInt24List ((r1.data.drop r1.pos).take (count * 3))),
        { r1 with pos := r1.pos + count * 3, dataRemaining := r1.dataRemaining - count * 3 }, ?_⟩
      have hrc := readChunk_full2 r1 (count * 3) (by omega) (by omega)
      simp only [readSamples, Reader.readInt24, hgh, hst]
      rw [if_neg (by simp)]
      simp only [hrc]
      rw [show ((r1.data.drop r1.pos).take (count * 3)).length = count * 3 from by
        rw [List.length_take, List.length_drop]; omega]
      rw [show count * 3 / 3 = count from by omega]
    · intro hpos hlt
      refine ⟨.int24 (unpackInt24List ((r1.data.drop r1.pos).take (min (r1.data.length - r1.pos) r1.dataRemaining))),
        { r1 with
          pos := r1.pos + (min (r1.data.length - r1.pos) r1.dataRemaining)
          dataRemaining := r1.dataRemaining - (min (r1.data.length - r1.pos) r1.dataRemaining) }, ?_⟩
      have hrc := readChunk_partial r1 (count * 3) (by omega) (by omega)
      simp only [readSamples, Reader.readInt24, hgh, hst]
      rw [if_neg (by simp)]
      simp only [hrc]
      rw [show ((r1.data.drop r1.pos).take (min (r1.data.length - r1.pos) r1.dataRemaining)).length = min (r1.data.length - r1.pos) r1.dataRemaining from by
        rw [List.length_take, List.length_drop]; omega]
    · intro h0
      refine ⟨.int24 (unpackInt24List ([])), r1, ?_⟩
      have hrc := readChunk_eof r1 (count * 3) (by omega) h0
      simp only [readSamples, Reader.readInt24, hgh, hst]
      rw [if_neg (by simp)]
      simp only [hrc]
      rfl
  | int32 =>
    simp only [SampleType.size]
    refine ⟨fun _ => ⟨?_, ?_, ?_⟩, fun h => absurd h (by decide)⟩
    · intro hle
      refine ⟨.int32 (decInt32List ((r1.data.drop r1.pos).take (count * 4))),
        { r1 with pos := r1.pos + count * 4, dataRemaining := r1.dataRemaining - count * 4 }, ?_⟩
      have hrc := readChunk_full2 r1 (count * 4) (by omega) (by omega)
      simp only [readSamples, Reader.readInt32, hgh, hst]
      rw [if_neg (by simp)]
      simp only [hrc]
      rw [show ((r1.data.drop r1.pos).take (count * 4)).length = count * 4 from by
        rw [List.length_take, List.length_drop]; omega]
      rw [show count * 4 / 4 = count from by omega]
    · intro hpos hlt
      refine ⟨.int32 (decInt32List ((r1.data.drop r1.pos).take (min (r1.data.length - r1.pos) r1.dataRemaining))),
        { r1 with
          pos := r1.pos + (min (r1.data.length - r1.pos) r1.dataRemaining)
          dataRemaining := r1.dataRemaining - (min (r1.data.length - r1.pos) r1.dataRemaining) }, ?_⟩
      have hrc := readChunk_partial r1 (count * 4) (by omega) (by omega)
      simp only [readSamples, Reader.readInt32, hgh, hst]
      rw [if_neg (by simp)]
      simp only [hrc]
      rw [show ((r1.data.drop r1.pos).take (min (r1.data.length - r1.pos) r1.dataRemaining)).length = min (r1.data.length - r1.pos) r1.dataRemaining from by
        rw [List.length_take, List.length_drop]; omega]
    · intro h0
      refine ⟨.int32 (decInt32List ([])), r1, ?_⟩
      have hrc := readChunk_eof r1 (count * 4) (by omega) h0
      simp only [readSamples, Reader.readInt32, hgh, hst]
      rw [if_neg (by simp)]
      simp only [hrc]
      rfl
  | float32 =>
    simp only [SampleType.size]
    refine ⟨fun _ => ⟨?_, ?_, ?_⟩, fun h => absurd h (by decide)⟩
    · intro hle
      refine ⟨.float32 (decFloat32List ((r1.data.drop r1.pos).take (count * 4))),
        { r1 with pos := r1.pos + count * 4, dataRemaining := r1.dataRemaining - count * 4 }, ?_⟩
      have hrc := readChunk_full2 r1 (count * 4) (by omega) (by omega)
      simp only [readSamples, Reader.readFloat32, hgh, hst]
      rw [if_neg (by simp)]
      simp only [hrc]
      rw [show ((r1.data.drop r1.pos).take (count * 4)).length = count * 4 from by
        rw [List.length_take, List.length_drop]; omega]
      rw [show count * 4 / 4 = count from by omega]
    · intro hpos hlt
      refine ⟨.float32 (decFloat32List ((r1.data.drop r1.pos).take (min (r1.data.length - r1.pos) r1.dataRemaining))),
        { r1 with
          pos := r1.pos + (min (r1.data.length - r1.pos) r1.dataRemaining)
          dataRemaining := r1.dataRemaining - (min (r1.data.length - r1.pos) r1.dataRemaining) }, ?_⟩
      have hrc := readChunk_partial r1 (count * 4) (by omega) (by omega)
      simp only [readSamples, Reader.readFloat32, hgh, hst]
      rw [if_neg (by simp)]
      simp only [hrc]
      rw [show ((r1.data.drop r1.pos).take (min (r1.data.length - r1.pos) r1.dataRemaining)).length = min (r1.data.length - r1.pos) r1.dataRemaining from by
        rw [List.length_take, List.length_drop]; omega]
    · intro h0
      refine ⟨.float32 (decFloat32List ([])), r1, ?_⟩
      have hrc := readChunk_eof r1 (count * 4) (by omega) h0
      simp only [readSamples, Reader.readFloat32, hgh, hst]
      rw [if_neg (by simp)]
      simp only [hrc]
      rfl
  | float64 =>
    simp only [SampleType.size]
    refine ⟨fun _ => ⟨?_, ?_, ?_⟩, fun h => absurd h (by decide)⟩
    · intro hle
      refine ⟨.float64 (decFloat64List ((r1.data.drop r1.pos).take (count * 8))),
        { r1 with pos := r1.pos + count * 8, dataRemaining := r1.dataRemaining - count * 8 }, ?_⟩
      have hrc := readChunk_full2 r1 (count * 8) (by omega) (by omega)
      simp only [readSamples, Reader.readFloat64, hgh, hst]
      rw [if_neg (by simp)]
      simp only [hrc]
      rw [show ((r1.data.drop r1.pos).take (count * 8)).length = count * 8 from by
        rw [List.length_take, List.length_drop]; omega]
      rw [show count * 8 / 8 = count from by omega]
    · intro hpos hlt
      refine ⟨.float64 (decFloat64List ((r1.data.drop r1.pos).take (min (r1.data.length - r1.pos) r1.dataRemaining))),
        { r1 with
          pos := r1.pos + (min (r1.data.length - r1.pos) r1.dataRemaining)
          dataRemaining := r1.dataRemaining - (min (r1.data.length - r1.pos) r1.dataRemaining) }, ?_⟩
      have hrc := readChunk_partial r1 (count * 8) (by omega) (by omega)
      simp only [readSamples, Reader.readFloat64, hgh, hst]
      rw [if_neg (by simp)]
      simp only [hrc]
      rw [show ((r1.data.drop r1.pos).take (min (r1.data.length - r1.pos) r1.dataRemaining)).length = min (r1.data.length - r1.pos) r1.dataRemaining from by
        rw [List.length_take, List.length_drop]; omega]
    · intro h0
      refine ⟨.float64 (decFloat64List ([])), r1, ?_⟩
      have hrc := readChunk_eof r1 (count * 8) (by omega) h0
      simp only [readSamples, Reader.readFloat64, hgh, hst]
      rw [if_neg (by simp)]
      simp only [hrc]
      rfl



/-- A concrete reader with a memoized valid PCM 16-bit header and four
data bytes remaining, used to witness the staged read semantics. -/
def c5Reader : Reader := ⟨[10, 20, 30, 40], 0, some c6Header, 4⟩

/-- C5 witness: the read semantics at a concrete matching int16 reader. -/
theorem C5_read_semantics_witness :
    c5Reader.getHeader = .ok (c6Header, c5Reader) ∧
    c6Header.sampleType = .ok .int16 ∧
    (0 : Nat) < 1 ∧
    ((SampleType.int16 ≠ .uint8 →
      (1 * SampleType.int16.size ≤
          min (c5Reader.data.length - c5Reader.pos) c5Reader.dataRemaining →
        ∃ (s : Samples) (r2 : Reader),
          readSamples c5Reader .int16 1 = .ok ((s, 1, none), r2)) ∧
      (0 < min (c5Reader.data.length - c5Reader.pos) c5Reader.dataRemaining →
        min (c5Reader.data.length - c5Reader.pos) c5Reader.dataRemaining <
          1 * SampleType.int16.size →
        ∃ (s : Samples) (r2 : Reader),
          readSamples c5Reader .int16 1 =
            .ok ((s, min (c5Reader.data.length - c5Reader.pos) c5Reader.dataRemaining /
              SampleType.int16.size, some .unexpectedEOF), r2)) ∧
      (min (c5Reader.data.length - c5Reader.pos) c5Reader.dataRemaining = 0 →
        ∃ (s : Samples) (r2 : Reader),
          readSamples c5Reader .int16 1 = .ok ((s, 0, some .eof), r2))) ∧
     (SampleType.int16 = .uint8 →
      (1 ≤ min (c5Reader.data.length - c5Reader.pos) c5Reader.dataRemaining →
        ∃ (s : Samples) (r2 : Reader),
          readSamples c5Reader .int16 1 = .ok ((s, 1, none), r2)) ∧
      (0 < min (c5Reader.data.length - c5Reader.pos) c5Reader.dataRemaining →
        min (c5Reader.data.length - c5Reader.pos) c5Reader.dataRemaining < 1 →
        ∃ (s : Samples) (r2 : Reader),
          readSamples c5Reader .int16 1 =
            .ok ((s, min (c5Reader.data.length - c5Reader.pos) c5Reader.dataRemaining,
              none), r2)) ∧
      (min (c5Reader.data.length - c5Reader.pos) c5Reader.dataRemaining = 0 →
        ∃ (s : Samples) (r2 : Reader),
          readSamples c5Reader .int16 1 = .ok ((s, 0, some .eof), r2)))) :=
  ⟨rfl, rfl, by decide,
    C5_read_semantics .int16 1 c5Reader c6Header c5Reader rfl rfl (by decide)⟩



end AudioIO
